import Mathlib

/-!
smart-file-api: the response cache and the listing helpers

A shallow embedding of the caching layer of the service
(`middleware/cache.go`, `config/redis.go`), of the file controllers that
invalidate it (`controllers/file.go`) and of the pagination and filter helpers of
the listing (`utils/pagination.go`).

Conventions of the embedding:

* a Go `string` and a Go `[]byte` are both a Lean `String`; the conversions
  `string(b)` and `[]byte(s)` are the identity;
* a Go `uint` is a `Nat`;
* `md5.Sum` is a parameter of everything that hashes: nothing below depends on
  what the digest of a given string is;
* the Redis server, the gin response writer and the database are external to the
  repository; they are represented by small executable models whose
  assumptions are written next to each definition.
-/

namespace SmartFileApi

/-! ## Key derivation (`middleware/cache.go`) -/

/-- One byte of a digest. -/
abbrev Byte := Fin 256

/-- The result type of `md5.Sum`: an array of 16 bytes (`[16]byte`). -/
abbrev Digest := { bs : List Byte // bs.length = 16 }

/-- The table of `encoding/hex`: `"0123456789abcdef"`. -/
def hextable : List Char := "0123456789abcdef".data

/-- The hexadecimal digit of a value below 16: `hextable[v]`. -/
def hexDigit (v : Nat) : Char := hextable.getD v '0'

/-- The loop of `hex.Encode`: every byte `v` gives `hextable[v>>4]` and then
`hextable[v&0x0f]`. -/
def hexEncode : List Byte → List Char
  | [] => []
  | v :: rest => hexDigit (v.val / 16) :: hexDigit (v.val % 16) :: hexEncode rest

/-- `hex.EncodeToString`. -/
def EncodeToString (src : List Byte) : String := String.mk (hexEncode src)

/-- The string that is hashed: `fmt.Sprintf("%s:user:%d", path, userID)`. -/
def cacheKeyData (path : String) (userID : Nat) : String :=
  path ++ ":user:" ++ Nat.repr userID

/-- `generateCacheKey`: the namespace tag `"cache:"` followed by the hex encoding
of the MD5 digest of `cacheKeyData`. -/
def generateCacheKey (md5 : String → Digest) (path : String) (userID : Nat) : String :=
  let data := cacheKeyData path userID
  let hash := md5 data
  "cache:" ++ EncodeToString hash.val

/-! ## Glob patterns of the store

Redis matches the keys of `SCAN ... MATCH pattern` against a glob pattern.  The
model covers literal characters, `?` and `*`; character classes and escapes
are not modelled (the program only ever passes `"cache:*"`). -/

/-- The predicate `f` holds of some suffix of `s`: what `*` followed by the rest of a
pattern has to find. -/
def anySuffix (f : List Char → Bool) : List Char → Bool
  | [] => f []
  | c :: s => f (c :: s) || anySuffix f s

/-- Glob matching of a whole key against a pattern, on lists of characters. -/
def globMatchChars : List Char → List Char → Bool
  | [], s => s.isEmpty
  | '*' :: p, s => anySuffix (globMatchChars p) s
  | '?' :: p, s =>
    match s with
    | [] => false
    | _ :: s => globMatchChars p s
  | c :: p, s =>
    match s with
    | [] => false
    | d :: s => c == d && globMatchChars p s

/-- Glob matching of a key against a pattern. -/
def globMatch (pattern key : String) : Bool := globMatchChars pattern.data key.data

/-! ## The store (`config/redis.go`)

`config.RedisClient` is `nil` when the store is unavailable; otherwise it is a
client of a Redis server.  The server is modelled as a finite list of entries
with a clock and a fault schedule:

* `entries` are the live keys with their values and expiry instants;
* `now` is the server's clock, advanced only by `elapse`, which also drops
  the entries whose expiry instant has been reached;
* `faults` is the outcome of the commands still to come, in order: `true`
  means that the command fails (connection lost, timeout) and leaves the
  entries alone; an exhausted schedule means no further failure. -/

/-- The errors returned by the store helpers. -/
inductive StoreError
  /-- `fmt.Errorf("redis not available")`: `RedisClient` is `nil`. -/
  | notAvailable
  /-- `redis.Nil`: the key does not exist. -/
  | nil
  /-- The command did not reach the server or was not answered. -/
  | failed
  deriving DecidableEq, Repr

/-- A stored value with the instant at which it expires (`none`: never). -/
structure Entry where
  value : String
  expiresAt : Option Nat
  deriving DecidableEq, Repr

/-- The client together with the server it talks to. -/
structure Client where
  entries : List (String × Entry)
  now : Nat
  faults : List Bool
  deriving DecidableEq, Repr

/-- Draw the outcome of the next command from the fault schedule. -/
def Client.command (c : Client) : Bool × Client :=
  match c.faults with
  | [] => (false, c)
  | f :: fs => (f, { c with faults := fs })

/-- `RedisClient.Get(Ctx, key).Result()`: the value and a nil error, or the empty
string and an error (`redis.Nil` when the key is absent). -/
def Client.Get (c : Client) (key : String) : (String × Option StoreError) × Client :=
  match c.command with
  | (true, c1) => (("", some StoreError.failed), c1)
  | (false, c1) =>
    match c1.entries.lookup key with
    | none => (("", some StoreError.nil), c1)
    | some e => ((e.value, none), c1)

/-- `RedisClient.Set(Ctx, key, value, expiration).Err()`: the key is (re)bound to the
value; a positive expiration gives it an expiry instant, zero none. -/
def Client.Set (c : Client) (key value : String) (expiration : Nat) :
    Option StoreError × Client :=
  match c.command with
  | (true, c1) => (some StoreError.failed, c1)
  | (false, c1) =>
    let e : Entry :=
      { value := value
        expiresAt := if expiration = 0 then none else some (c1.now + expiration) }
    (none, { c1 with entries := (key, e) :: c1.entries.filter (fun kv => kv.1 != key) })

/-- `RedisClient.Del(Ctx, key).Err()`. -/
def Client.Del (c : Client) (key : String) : Option StoreError × Client :=
  match c.command with
  | (true, c1) => (some StoreError.failed, c1)
  | (false, c1) => (none, { c1 with entries := c1.entries.filter (fun kv => kv.1 != key) })

/-- The keys a `SCAN ... MATCH pattern` iteration started now enumerates: every key
of the store that matches the pattern. -/
def Client.scanKeys (c : Client) (pattern : String) : List String :=
  (c.entries.map (fun kv => kv.1)).filter (globMatch pattern)

/-- Whether an entry is still alive at the instant `t`. -/
def Entry.live (t : Nat) (e : Entry) : Bool :=
  match e.expiresAt with
  | none => true
  | some x => decide (t < x)

/-- The passage of `dt` units of time on the server: the clock advances and the
entries that have expired by then are gone. -/
def Client.elapse (dt : Nat) (c : Client) : Client :=
  { c with
    now := c.now + dt
    entries := c.entries.filter (fun kv => kv.2.live (c.now + dt)) }

/-- The loop of `DeleteCachePattern` over the keys the iterator still has to
yield.  Every `iter.Next` may have to ask the server for a further page of
keys, so it draws from the fault schedule; a failed `Next` ends the loop and
its error is what `iter.Err()` returns.  A failed `Del` returns at once. -/
def deleteScanned : List String → Client → Option StoreError × Client
  | [], c =>
    match c.command with
    | (true, c1) => (some StoreError.failed, c1)
    | (false, c1) => (none, c1)
  | k :: ks, c =>
    match c.command with
    | (true, c1) => (some StoreError.failed, c1)
    | (false, c1) =>
      match c1.Del k with
      | (some err, c2) => (some err, c2)
      | (none, c2) => deleteScanned ks c2

/-- `SetCache` on the global client. -/
def SetCache (key value : String) (expiration : Nat) (rc : Option Client) :
    Option StoreError × Option Client :=
  match rc with
  | none => (some StoreError.notAvailable, none)
  | some c => ((c.Set key value expiration).1, some (c.Set key value expiration).2)

/-- `GetCache` on the global client. -/
def GetCache (key : String) (rc : Option Client) :
    (String × Option StoreError) × Option Client :=
  match rc with
  | none => (("", some StoreError.notAvailable), none)
  | some c => ((c.Get key).1, some (c.Get key).2)

/-- `DeleteCache` on the global client. -/
def DeleteCache (key : String) (rc : Option Client) : Option StoreError × Option Client :=
  match rc with
  | none => (some StoreError.notAvailable, none)
  | some c => ((c.Del key).1, some (c.Del key).2)

/-- `DeleteCachePattern` on the global client. -/
def DeleteCachePattern (pattern : String) (rc : Option Client) :
    Option StoreError × Option Client :=
  match rc with
  | none => (some StoreError.notAvailable, none)
  | some c =>
    ((deleteScanned (c.scanKeys pattern) c).1, some (deleteScanned (c.scanKeys pattern) c).2)

/-! ## Requests, responses and the handler chain (gin)

The response is what the client receives: a status, headers and a body.  Header
names are taken in their canonical form.  Once the first byte of the body has
been written the status and the headers are on the wire, so later changes to
them do not reach the response. -/

/-- The part of a request the program looks at. -/
structure Request where
  /-- `c.Request.Method`. -/
  method : String
  /-- `c.Request.URL.Path`. -/
  path : String
  /-- `c.Request.URL.Query()`, as seen through `c.Query`. -/
  query : List (String × String)
  /-- The context key `"user_id"`, set by the authentication middleware. -/
  user_id : Option Nat
  deriving DecidableEq, Repr

/-- `c.GetUint("user_id")`: zero when the key is not set. -/
def Request.GetUint (r : Request) : Nat := r.user_id.getD 0

/-- The response writer of gin. -/
structure ResponseWriter where
  status : Nat
  header : List (String × String)
  written : Bool
  body : String
  deriving DecidableEq, Repr

/-- The writer of a new context: status 200, nothing set, nothing written. -/
def ResponseWriter.fresh : ResponseWriter :=
  { status := 200, header := [], written := false, body := "" }

/-- `Header().Get(key)`. -/
def ResponseWriter.Get (w : ResponseWriter) (key : String) : Option String :=
  w.header.lookup key

/-- `Header().Set(key, value)`. -/
def ResponseWriter.Set (key value : String) (w : ResponseWriter) : ResponseWriter :=
  if w.written then w
  else { w with header := (key, value) :: w.header.filter (fun kv => kv.1 != key) }

/-- `Header().Del(key)`. -/
def ResponseWriter.Del (key : String) (w : ResponseWriter) : ResponseWriter :=
  if w.written then w
  else { w with header := w.header.filter (fun kv => kv.1 != key) }

/-- `c.Header(key, value)`: an empty value removes the header. -/
def ResponseWriter.Header (key value : String) (w : ResponseWriter) : ResponseWriter :=
  if value == "" then w.Del key else w.Set key value

/-- `WriteHeader(code)`: sets the status unless the headers are already written. -/
def ResponseWriter.WriteHeader (code : Nat) (w : ResponseWriter) : ResponseWriter :=
  if 0 < code ∧ w.status ≠ code then
    if w.written then w else { w with status := code }
  else w

/-- `WriteHeaderNow()`. -/
def ResponseWriter.WriteHeaderNow (w : ResponseWriter) : ResponseWriter :=
  { w with written := true }

/-- `Write(data)` of gin's writer. -/
def ResponseWriter.Write (data : String) (w : ResponseWriter) : ResponseWriter :=
  { w.WriteHeaderNow with body := w.body ++ data }

/-- What a handler does to its response writer, call by call. -/
inductive WriterOp
  /-- `c.Header(key, value)`. -/
  | header (key value : String)
  /-- `c.Status(code)`, that is `c.Writer.WriteHeader(code)`. -/
  | status (code : Nat)
  /-- `c.Writer.Write(data)`; the renderers of gin (`c.JSON`, `c.Data`, ...) end in it. -/
  | write (data : String)
  deriving DecidableEq, Repr

/-- The handler wrapped by the middleware: an opaque function that, given the
request, issues calls on `c.Writer`.  The body is written with `Write`, as every
handler of the repository does through `c.JSON`. -/
abbrev Handler := Request → List WriterOp

/-- The columns of `models.File` that the controllers set or return (the time
stamps and the owner association are left out). -/
structure File where
  ID : Nat
  UserID : Nat
  FileName : String
  OriginalName : String
  FilePath : String
  FileSize : Int
  FileType : String
  Status : String
  deriving DecidableEq, Repr

/-- The `"data"` member of a success response. -/
inductive Payload
  /-- `nil`. -/
  | null
  /-- `gin.H{"file": file}`. -/
  | file (f : File)
  deriving DecidableEq, Repr

/-- The response written by `utils.SuccessResponse` and `utils.ErrorResponse`: the
HTTP status and the members of the JSON object (`data` is `none` for an error
response, which has no such member). -/
structure Reply where
  code : Nat
  status : String
  message : String
  data : Option Payload
  deriving DecidableEq, Repr

/-- The calls that the claims speak about, in the order in which they happen. -/
inductive Event
  /-- A call of `config.GetCache`. -/
  | getCache (key : String)
  /-- A call of `config.SetCache`. -/
  | setCache (key value : String) (expiration : Nat)
  /-- A call of `config.DeleteCachePattern`. -/
  | deleteCachePattern (pattern : String)
  /-- The wrapped handler is entered; `header` is the response header at that moment. -/
  | handler (header : List (String × String))
  /-- `c.SaveUploadedFile(file, dst)` and whether it succeeded. -/
  | saveUploadedFile (dst : String) (ok : Bool)
  /-- `os.Remove(path)` and whether it succeeded. -/
  | osRemove (path : String) (ok : Bool)
  /-- `config.DB.Create(&fileRecord)` and whether it succeeded. -/
  | dbCreate (f : File) (ok : Bool)
  /-- `config.DB.Delete(&file)`, the soft delete, and whether it succeeded. -/
  | dbDelete (id : Nat) (ok : Bool)
  /-- `config.DB.Unscoped().Delete(&file)` and whether it succeeded. -/
  | dbUnscopedDelete (id : Nat) (ok : Bool)
  /-- `config.DB.Model(&file).Update("deleted_at", nil)` and whether it succeeded. -/
  | dbUpdateDeletedAt (id : Nat) (ok : Bool)
  /-- The statement `go processFile(&fileRecord)`. -/
  | goProcessFile (id : Nat)
  /-- The response is written with `c.JSON`. -/
  | respond (r : Reply)
  deriving DecidableEq, Repr

/-- The state in which a request is served: the global `config.RedisClient`, the
gin context of the request and the events so far. -/
structure World where
  /-- `config.RedisClient`; `none` is `nil`. -/
  RedisClient : Option Client
  /-- `c.Request` and `c.Keys`. -/
  request : Request
  /-- The writer of gin underneath `c.Writer`. -/
  writer : ResponseWriter
  /-- The `body` of the capturing `responseWriter`, once it is installed as
  `c.Writer`. -/
  capture : Option String
  /-- `c.index`. -/
  index : Int
  events : List Event
  deriving DecidableEq, Repr

/-- The context gin hands to the first handler of the chain: `c.reset()`. -/
def World.new (rc : Option Client) (r : Request) : World :=
  { RedisClient := rc, request := r, writer := ResponseWriter.fresh, capture := none,
    index := -1, events := [] }

/-- `config.GetCache(key)`. -/
def World.GetCache (key : String) (w : World) : (String × Option StoreError) × World :=
  ((SmartFileApi.GetCache key w.RedisClient).1,
    { w with RedisClient := (SmartFileApi.GetCache key w.RedisClient).2
             events := w.events ++ [Event.getCache key] })

/-- `config.SetCache(key, value, expiration)`. -/
def World.SetCache (key value : String) (expiration : Nat) (w : World) :
    Option StoreError × World :=
  ((SmartFileApi.SetCache key value expiration w.RedisClient).1,
    { w with RedisClient := (SmartFileApi.SetCache key value expiration w.RedisClient).2
             events := w.events ++ [Event.setCache key value expiration] })

/-- `config.DeleteCachePattern(pattern)`. -/
def World.DeleteCachePattern (pattern : String) (w : World) : Option StoreError × World :=
  ((SmartFileApi.DeleteCachePattern pattern w.RedisClient).1,
    { w with RedisClient := (SmartFileApi.DeleteCachePattern pattern w.RedisClient).2
             events := w.events ++ [Event.deleteCachePattern pattern] })

/-- `(w *responseWriter).Write` when the capturing writer is installed, the plain
`Write` of gin otherwise: the bytes are appended to the captured body and passed
on. -/
def World.Write (data : String) (w : World) : World :=
  { w with
    capture := w.capture.map (fun body => body ++ data)
    writer := w.writer.Write data }

/-- One call of a handler on `c.Writer`.  The capturing writer overrides `Write`
only; the other methods are those of the writer it embeds. -/
def World.apply (w : World) : WriterOp → World
  | WriterOp.header key value => { w with writer := w.writer.Header key value }
  | WriterOp.status code => { w with writer := w.writer.WriteHeader code }
  | WriterOp.write data => w.Write data

/-- Run the wrapped handler. -/
def World.invoke (h : Handler) (w : World) : World :=
  (h w.request).foldl World.apply
    { w with events := w.events ++ [Event.handler w.writer.header] }

/-- `abortIndex`. -/
def abortIndex : Int := 63

/-- `c.Abort()`. -/
def World.Abort (w : World) : World := { w with index := abortIndex }

/-- The loop `for c.index < len(c.handlers) { c.handlers[c.index](c); c.index++ }` of
`Next` for the chain of a cached route, `[CacheMiddleware(d), h]`, from an index
past the middleware. -/
def World.loop (h : Handler) (w : World) : World :=
  if w.index = 1 then
    let w1 := w.invoke h
    { w1 with index := w1.index + 1 }
  else w

/-- `c.Next()` as called by the middleware. -/
def World.Next (h : Handler) (w : World) : World :=
  World.loop h { w with index := w.index + 1 }

/-- `bodyAllowedForStatus`. -/
def bodyAllowedForStatus (status : Nat) : Bool :=
  if 100 ≤ status ∧ status ≤ 199 then false
  else if status = 204 then false
  else if status = 304 then false
  else true

/-- `writeContentType`: sets `Content-Type` unless it is already set. -/
def writeContentType (value : String) (w : ResponseWriter) : ResponseWriter :=
  match w.Get "Content-Type" with
  | none => w.Set "Content-Type" value
  | some _ => w

/-- `c.Data(code, contentType, data)`. -/
def World.Data (code : Nat) (contentType data : String) (w : World) : World :=
  let w1 := { w with writer := w.writer.WriteHeader code }
  if bodyAllowedForStatus code then
    World.Write data { w1 with writer := writeContentType contentType w1.writer }
  else
    { w1 with writer := (writeContentType contentType w1.writer).WriteHeaderNow }

/-! ## The middleware (`middleware/cache.go`) -/

/-- `CacheMiddleware(duration)`, with `h` the handler registered after it. -/
def CacheMiddleware (md5 : String → Digest) (duration : Nat) (h : Handler) (w : World) :
    World :=
  -- Skip caching if Redis not available
  if w.RedisClient = none then w.Next h
  -- Skip caching for non-GET requests
  else if w.request.method ≠ "GET" then w.Next h
  else
    let userID := w.request.GetUint
    let cacheKey := generateCacheKey md5 w.request.path userID
    let cachedResponse := (w.GetCache cacheKey).1.1
    let err := (w.GetCache cacheKey).1.2
    let w1 := (w.GetCache cacheKey).2
    if err = none ∧ cachedResponse ≠ "" then
      -- Cache hit
      let w2 := { w1 with writer := w1.writer.Header "X-Cache" "HIT" }
      let w3 := w2.Data 200 "application/json" cachedResponse
      w3.Abort
    else
      -- Cache miss - continue to handler
      let w2 := { w1 with writer := w1.writer.Header "X-Cache" "MISS" }
      let w3 := { w2 with capture := some "" }
      let w4 := w3.Next h
      if w4.writer.status = 200 then
        (w4.SetCache cacheKey (w4.capture.getD "") duration).2
      else w4

/-- The key the middleware derives for a request: `generateCacheKey` of the path and
of `c.GetUint("user_id")`. -/
def Request.cacheKey (md5 : String → Digest) (r : Request) : String :=
  generateCacheKey md5 r.path r.GetUint

/-- The request is served by the chain `[CacheMiddleware(duration), h]`: gin calls
`c.Next()` on the new context. -/
def serve (md5 : String → Digest) (duration : Nat) (h : Handler) (w : World) : World :=
  let w0 := { w with index := w.index + 1 }
  let w1 := CacheMiddleware md5 duration h w0
  World.loop h { w1 with index := w1.index + 1 }

/-! ## The file controllers (`controllers/file.go`, `utils/response.go`)

The database, the file system and the multipart form are outside the program:
what they answer to each call is given by an environment, and the calls are
recorded as events.  The logging of `ErrorResponse` is left out. -/

/-- `utils.SuccessResponse(c, statusCode, message, data)`. -/
def SuccessResponse (statusCode : Nat) (message : String) (data : Payload) (w : World) :
    World :=
  { w with events := w.events ++
      [Event.respond
        { code := statusCode, status := "success", message := message, data := some data }] }

/-- `utils.ErrorResponse(c, statusCode, message)`. -/
def ErrorResponse (statusCode : Nat) (message : String) (w : World) : World :=
  { w with events := w.events ++
      [Event.respond
        { code := statusCode, status := "error", message := message, data := none }] }

/-- The responses written while a request was served. -/
def World.replies (w : World) : List Reply :=
  w.events.filterMap (fun e => match e with
    | Event.respond r => some r
    | _ => none)

/-- `MaxFileSize = 10 << 20`. -/
def MaxFileSize : Int := ((10 <<< 20 : Nat) : Int)

/-- The loop of `filepath.Ext` over the reversed path: `acc` is the part of the path
already passed. -/
def extLoop : List Char → List Char → List Char
  | [], _ => []
  | c :: rest, acc =>
    if c == '/' then []
    else if c == '.' then '.' :: acc
    else extLoop rest (c :: acc)

/-- `filepath.Ext(path)`: the suffix beginning at the final dot of the final element
of the path, empty if there is no dot. -/
def Ext (path : String) : String := String.mk (extLoop path.data.reverse [])

/-- `detectFileType`. -/
def detectFileType (ext : String) : String :=
  let imageExts := [".jpg", ".jpeg", ".png", ".gif", ".bmp"]
  let audioExts := [".mp3", ".wav", ".flac", ".m4a", ".ogg"]
  let videoExts := [".mp4", ".avi", ".mkv", ".mov"]
  let documentExts := [".pdf", ".doc", ".docx", ".txt"]
  if imageExts.contains ext then "image"
  else if audioExts.contains ext then "audio"
  else if videoExts.contains ext then "video"
  else if documentExts.contains ext then "document"
  else "other"

/-- `multipart.FileHeader`. -/
structure FileHeader where
  Filename : String
  Size : Int
  deriving DecidableEq, Repr

/-- What the outside answers during `UploadFile`. -/
structure UploadEnv where
  /-- `c.FormFile("file")`; `none` when it returns an error. -/
  formFile : Option FileHeader
  /-- `time.Now().Unix()`. -/
  unix : Int
  /-- `c.SaveUploadedFile` returns an error. -/
  saveFails : Bool
  /-- `config.DB.Create`: the primary key given to the record, `none` when it
  returns an error. -/
  created : Option Nat
  deriving DecidableEq, Repr

/-- `UploadFile`. -/
def UploadFile (env : UploadEnv) (w : World) : World :=
  let userID := w.request.GetUint
  -- Get file from form
  match env.formFile with
  | none => ErrorResponse 400 "File is required" w
  | some file =>
    -- Validate file size
    if file.Size > MaxFileSize then
      ErrorResponse 400 "File size exceeds 10MB limit" w
    else
      -- Generate unique filename
      let ext := Ext file.Filename
      let newFilename := toString userID ++ "_" ++ toString env.unix ++ ext
      -- filepath.Join: the new name has no separator and is neither "." nor ".."
      let filePath := "uploads/" ++ newFilename
      -- Save file
      let w1 :=
        { w with events := w.events ++ [Event.saveUploadedFile filePath (!env.saveFails)] }
      if env.saveFails then
        ErrorResponse 500 "Failed to save file" w1
      else
        -- Detect file type
        let fileType := detectFileType ext
        -- Save to database
        let fileRecord : File :=
          { ID := 0, UserID := userID, FileName := newFilename,
            OriginalName := file.Filename, FilePath := filePath, FileSize := file.Size,
            FileType := fileType, Status := "pending" }
        let w2 :=
          { w1 with events := w1.events ++ [Event.dbCreate fileRecord env.created.isSome] }
        match env.created with
        | none => ErrorResponse 500 "Failed to save file record" w2
        | some id =>
          let fileRecord := { fileRecord with ID := id }
          -- Invalidate cache for user's file list
          let w3 := (w2.DeleteCachePattern "cache:*").2
          -- Start processing in background (async)
          let w4 := { w3 with events := w3.events ++ [Event.goProcessFile id] }
          SuccessResponse 201 "File uploaded successfully" (Payload.file fileRecord) w4

/-- What the outside answers during `DeleteFile`, `RestoreFile` and `HardDeleteFile`. -/
structure RecordEnv where
  /-- The record found by the query that ends in `First(&file)`; `none` when it
  returns an error. -/
  first : Option File
  /-- `os.Remove` returns an error. -/
  removeFails : Bool
  /-- The statement that changes the record returns an error. -/
  changeFails : Bool
  deriving DecidableEq, Repr

/-- `DeleteFile`. -/
def DeleteFile (env : RecordEnv) (w : World) : World :=
  match env.first with
  | none => ErrorResponse 404 "File not found" w
  | some file =>
    -- Delete physical file from disk
    let w1 :=
      { w with events := w.events ++ [Event.osRemove file.FilePath (!env.removeFails)] }
    -- Soft delete from database
    let w2 := { w1 with events := w1.events ++ [Event.dbDelete file.ID (!env.changeFails)] }
    if env.changeFails then
      ErrorResponse 500 "Failed to delete file" w2
    else
      -- Invalidate cache
      let w3 := (w2.DeleteCachePattern "cache:*").2
      SuccessResponse 200 "File deleted successfully" Payload.null w3

/-- `RestoreFile`. -/
def RestoreFile (env : RecordEnv) (w : World) : World :=
  match env.first with
  | none => ErrorResponse 404 "Deleted file not found" w
  | some file =>
    let w1 :=
      { w with events := w.events ++ [Event.dbUpdateDeletedAt file.ID (!env.changeFails)] }
    if env.changeFails then
      ErrorResponse 500 "Failed to restore file" w1
    else
      SuccessResponse 200 "File restored successfully" (Payload.file file) w1

/-- `HardDeleteFile`. -/
def HardDeleteFile (env : RecordEnv) (w : World) : World :=
  match env.first with
  | none => ErrorResponse 404 "File not found" w
  | some file =>
    let w1 :=
      { w with events := w.events ++ [Event.osRemove file.FilePath (!env.removeFails)] }
    let w2 :=
      { w1 with events := w1.events ++ [Event.dbUnscopedDelete file.ID (!env.changeFails)] }
    if env.changeFails then
      ErrorResponse 500 "Failed to delete file" w2
    else
      SuccessResponse 200 "File permanently deleted" Payload.null w2

/-! ## Pagination and filters (`utils/pagination.go`)

A Go `int` and a Go `int64` are 64 bits wide; they are integers of Lean with the
wrap-around written out.  `strconv.Atoi` belongs to the standard library and is
modelled by what it accepts: an optional sign and at least one decimal digit,
within the range of `int`. -/

/-- The value an arithmetic result has in a 64-bit signed integer. -/
def wrapInt64 (x : Int) : Int := (x + 2 ^ 63) % 2 ^ 64 - 2 ^ 63

/-- `c.Query(key)`: the first value of the key, the empty string when there is
none. -/
def Request.Query (r : Request) (key : String) : String := (r.query.lookup key).getD ""

/-- The digit loop of `strconv`: `n = n*10 + int(ch - '0')`, a syntax error at the
first character that is not a digit. -/
def parseDigits : List Char → Nat → Option Nat
  | [], n => some n
  | ch :: rest, n =>
    if ch.isDigit then parseDigits rest (n * 10 + (ch.toNat - '0'.toNat)) else none

/-- `strconv.Atoi`; `none` when it returns an error (syntax or range). -/
def Atoi (s : String) : Option Int :=
  match s.data with
  | [] => none
  | s0 :: rest =>
    let digits := if s0 == '-' || s0 == '+' then rest else s0 :: rest
    if digits.isEmpty then none
    else
      match parseDigits digits 0 with
      | none => none
      | some un =>
        if s0 == '-' then
          if un ≤ 2 ^ 63 then some (-(un : Int)) else none
        else
          if un < 2 ^ 63 then some (un : Int) else none

/-- `Pagination`. -/
structure Pagination where
  Page : Int
  Limit : Int
  TotalRows : Int
  TotalPages : Int
  deriving DecidableEq, Repr

/-- `GeneratePaginationFromRequest`. -/
def GeneratePaginationFromRequest (r : Request) : Pagination :=
  -- Default values
  let page : Int := 1
  let limit : Int := 10
  -- Get page from query
  let page :=
    if r.Query "page" ≠ "" then
      match Atoi (r.Query "page") with
      | some pageNum => if pageNum > 0 then pageNum else page
      | none => page
    else page
  -- Get limit from query (max 100)
  let limit :=
    if r.Query "limit" ≠ "" then
      match Atoi (r.Query "limit") with
      | some limitNum => if limitNum > 0 then (if limitNum > 100 then 100 else limitNum) else limit
      | none => limit
    else limit
  { Page := page, Limit := limit, TotalRows := 0, TotalPages := 0 }

/-- `(p *Pagination).GetOffset`. -/
def Pagination.GetOffset (p : Pagination) : Int :=
  wrapInt64 (wrapInt64 (p.Page - 1) * p.Limit)

/-- `(p *Pagination).CalculateTotalPages`: the pagination afterwards, `none` when the
division panics (`Limit` is zero). -/
def Pagination.CalculateTotalPages (p : Pagination) : Option Pagination :=
  if p.TotalRows > 0 then
    if p.Limit = 0 then none
    else
      some { p with
        TotalPages :=
          wrapInt64 (Int.tdiv (wrapInt64 (wrapInt64 (p.TotalRows + p.Limit) - 1)) p.Limit) }
  else some p

/-- `FileFilter`; the field `type` is `Type` in the source. -/
structure FileFilter where
  type : String
  Status : String
  SortBy : String
  SortOrder : String
  Search : String
  deriving DecidableEq, Repr

/-- The keys of `validSortFields`. -/
def validSortFields : List String :=
  ["created_at", "file_size", "file_name", "original_name", "file_type"]

/-- `GenerateFilterFromRequest`. -/
def GenerateFilterFromRequest (r : Request) : FileFilter :=
  let filter : FileFilter :=
    { type := r.Query "type", Status := r.Query "status", SortBy := r.Query "sort",
      SortOrder := r.Query "order", Search := r.Query "search" }
  -- Default sorting
  let filter := if filter.SortBy = "" then { filter with SortBy := "created_at" } else filter
  let filter := if filter.SortOrder = "" then { filter with SortOrder := "desc" } else filter
  -- Validate sort order
  let filter :=
    if filter.SortOrder ≠ "asc" ∧ filter.SortOrder ≠ "desc" then
      { filter with SortOrder := "desc" }
    else filter
  -- Validate sort by
  if !validSortFields.contains filter.SortBy then { filter with SortBy := "created_at" }
  else filter

/-- The `orderClause` of `GetUserFiles`: `filter.SortBy + " " + filter.SortOrder`. -/
def orderClause (filter : FileFilter) : String := filter.SortBy ++ " " ++ filter.SortOrder

/-! ## Auxiliary definitions of the proofs -/

/-- One call of a handler on the plain writer of gin. -/
def ResponseWriter.apply (wr : ResponseWriter) : WriterOp → ResponseWriter
  | WriterOp.header key value => wr.Header key value
  | WriterOp.status code => wr.WriteHeader code
  | WriterOp.write data => wr.Write data

/-- The response of a handler that runs alone, without the middleware, on a new
context. -/
def Handler.response (h : Handler) (r : Request) : ResponseWriter :=
  (h r).foldl ResponseWriter.apply ResponseWriter.fresh

/-- The concatenation, in order, of the byte slices that a list of calls writes. -/
def bytesWritten : List WriterOp → String
  | [] => ""
  | WriterOp.write data :: ops => data ++ bytesWritten ops
  | WriterOp.header _ _ :: ops => bytesWritten ops
  | WriterOp.status _ :: ops => bytesWritten ops

/-! ## Values for the examples -/

/-- A stand-in for MD5 in the examples: sixteen times the length of the string
modulo 256. -/
def exampleMd5 : String → Digest :=
  fun s => ⟨List.replicate 16 (Fin.ofNat s.length), List.length_replicate 16 _⟩

/-- The listing request of user 7. -/
def exampleRequest : Request :=
  { method := "GET", path := "/api/files/", query := [], user_id := some 7 }

/-- A handler that answers 200 with a JSON body, as `c.JSON` does. -/
def exampleHandler : Handler := fun _ =>
  [WriterOp.status 200,
    WriterOp.header "Content-Type" "application/json; charset=utf-8",
    WriterOp.write "[3,4]"]

/-- An available store without any cached response. -/
def exampleClient : Client :=
  { entries := [("session:7", { value := "token", expiresAt := none })], now := 1000,
    faults := [] }

/-- An available store that holds a response cached for `exampleRequest`. -/
def cachedClient : Client :=
  { entries :=
      [(exampleRequest.cacheKey exampleMd5,
          { value := "[3,4]", expiresAt := some 1300 }),
        ("session:7", { value := "token", expiresAt := none })]
    now := 1000
    faults := [] }

/-- An available store on which the next commands fail. -/
def failingClient : Client :=
  { entries := [("session:7", { value := "token", expiresAt := none })], now := 1000,
    faults := [true, true, true] }

/-- A record of user 7. -/
def exampleFile : File :=
  { ID := 3, UserID := 7, FileName := "7_1700000000.png", OriginalName := "cat.png",
    FilePath := "uploads/7_1700000000.png", FileSize := 2048, FileType := "image",
    Status := "completed" }

/-- The record is found and every call on the outside succeeds. -/
def exampleRecord : RecordEnv :=
  { first := some exampleFile, removeFails := false, changeFails := false }

/-- An upload of 2048 bytes for which every call on the outside succeeds. -/
def exampleUpload : UploadEnv :=
  { formFile := some { Filename := "cat.png", Size := 2048 }, unix := 1700000000,
    saveFails := false, created := some 3 }

/-- A request of user 7 that changes record 3. -/
def exampleMutation : Request :=
  { method := "DELETE", path := "/api/files/3/permanent", query := [], user_id := some 7 }

/-- An available store with two cached responses on which the fourth command, the
deletion of the second key, fails. -/
def twoKeysClient : Client :=
  { entries :=
      [("cache:aa", { value := "[1]", expiresAt := some 1300 }),
        ("cache:bb", { value := "[2]", expiresAt := some 1300 }),
        ("session:7", { value := "token", expiresAt := none })]
    now := 1000
    faults := [false, false, false, true] }

/-- An upload of exactly `MaxFileSize` bytes for which every call on the outside
succeeds. -/
def boundaryUpload : UploadEnv :=
  { formFile := some { Filename := "big.bin", Size := 10485760 }, unix := 1700000000,
    saveFails := false, created := some 4 }

/-- The listing request of user 7 for the third page of five hundred. -/
def exampleListing : Request :=
  { method := "GET", path := "/api/files/", query := [("page", "3"), ("limit", "500")],
    user_id := some 7 }

/-- A listing handler whose answer depends on the `page` parameter. -/
def pageHandler : Handler := fun r =>
  [WriterOp.status 200,
    WriterOp.header "Content-Type" "application/json; charset=utf-8",
    WriterOp.write ("[" ++ r.Query "page" ++ "]")]

/-- Twenty-five rows in pages of ten, at the third page. -/
def examplePagination : Pagination :=
  { Page := 3, Limit := 10, TotalRows := 25, TotalPages := 0 }

/-- Five rows in pages of ten, with the page number zero. -/
def zeroPage : Pagination :=
  { Page := 0, Limit := 10, TotalRows := 5, TotalPages := 0 }

/-- The largest `int64` as the number of rows, in pages of a hundred. -/
def hugeCount : Pagination :=
  { Page := 1, Limit := 100, TotalRows := 9223372036854775807, TotalPages := 0 }

/-- The number a list of decimal digits stands for. -/
def decValue (cs : List Char) : Nat := cs.foldl (fun a c => 10 * a + (c.toNat - 48)) 0

/-! # Theorems -/

/-! ## Decimal numerals -/

theorem digitChar_isDigit (k : Nat) (hk : k < 10) :
    (Nat.digitChar k).isDigit = true ∧ (Nat.digitChar k).toNat - 48 = k := by
  interval_cases k <;> exact ⟨by decide, by decide⟩

theorem toDigitsCore_acc (f : Nat) : ∀ (n : Nat) (ds : List Char),
    Nat.toDigitsCore 10 f n ds = Nat.toDigitsCore 10 f n [] ++ ds := by
  induction f with
  | zero => intro n ds; simp [Nat.toDigitsCore]
  | succ f ih =>
    intro n ds
    simp only [Nat.toDigitsCore]
    split
    · simp
    · rw [ih (n / 10) (Nat.digitChar (n % 10) :: ds), ih (n / 10) [Nat.digitChar (n % 10)]]
      simp

theorem decValue_snoc (xs : List Char) (d : Char) :
    decValue (xs ++ [d]) = 10 * decValue xs + (d.toNat - 48) := by
  simp [decValue, List.foldl_append]

theorem decValue_toDigitsCore (f : Nat) : ∀ n : Nat, n < f →
    decValue (Nat.toDigitsCore 10 f n []) = n := by
  induction f with
  | zero => intro n h; omega
  | succ f ih =>
    intro n h
    simp only [Nat.toDigitsCore]
    split
    · rename_i h0
      have hn : n < 10 := by omega
      have := (digitChar_isDigit (n % 10) (Nat.mod_lt _ (by decide))).2
      simp [decValue, this]; omega
    · rename_i h0
      rw [toDigitsCore_acc, decValue_snoc, ih (n / 10) (by omega),
        (digitChar_isDigit (n % 10) (Nat.mod_lt _ (by decide))).2]
      omega

theorem isDigit_toDigitsCore (f : Nat) : ∀ n : Nat, ∀ c ∈ Nat.toDigitsCore 10 f n [],
    c.isDigit = true := by
  induction f with
  | zero => intro n c h; simp [Nat.toDigitsCore] at h
  | succ f ih =>
    intro n c h
    simp only [Nat.toDigitsCore] at h
    split at h
    · simp at h; subst h; exact (digitChar_isDigit (n % 10) (Nat.mod_lt _ (by decide))).1
    · rw [toDigitsCore_acc] at h
      simp at h
      rcases h with h | h
      · exact ih _ _ h
      · subst h; exact (digitChar_isDigit (n % 10) (Nat.mod_lt _ (by decide))).1

theorem repr_data (n : Nat) : (Nat.repr n).data = Nat.toDigits 10 n := rfl

theorem repr_injective (n m : Nat) (h : Nat.repr n = Nat.repr m) : n = m := by
  have h1 : decValue (Nat.repr n).data = decValue (Nat.repr m).data := by rw [h]
  rw [repr_data, repr_data] at h1
  unfold Nat.toDigits at h1
  rwa [decValue_toDigitsCore _ _ (Nat.lt_succ_self n),
    decValue_toDigitsCore _ _ (Nat.lt_succ_self m)] at h1

theorem repr_isDigit (n : Nat) : ∀ c ∈ (Nat.repr n).data, c.isDigit = true := by
  intro c hc
  rw [repr_data] at hc
  exact isDigit_toDigitsCore _ _ c hc

/-- Two lists that end in a colon followed by colon-free digits agree on the
digits and on what stands before the colon. -/
theorem colon_split (xs ys d1 d2 : List Char)
    (h1 : ∀ c ∈ d1, c.isDigit = true) (h2 : ∀ c ∈ d2, c.isDigit = true)
    (h : xs ++ ':' :: d1 = ys ++ ':' :: d2) : xs = ys ∧ d1 = d2 := by
  induction xs generalizing ys with
  | nil =>
    cases ys with
    | nil => simpa using h
    | cons y ys =>
      simp at h
      obtain ⟨_, h⟩ := h
      have : ':' ∈ d1 := by rw [h]; simp
      have := h1 _ this
      exact absurd this (by decide)
  | cons x xs ih =>
    cases ys with
    | nil =>
      simp at h
      obtain ⟨_, h⟩ := h
      have : ':' ∈ d2 := by rw [← h]; simp
      have := h2 _ this
      exact absurd this (by decide)
    | cons y ys =>
      simp at h
      obtain ⟨hxy, h⟩ := h
      obtain ⟨h3, h4⟩ := ih ys h
      exact ⟨by rw [hxy, h3], h4⟩

theorem cacheKeyData_data (p : String) (u : Nat) :
    (cacheKeyData p u).data = (p.data ++ [':', 'u', 's', 'e', 'r']) ++ ':' :: (Nat.repr u).data := by
  simp [cacheKeyData, String.data_append]

theorem cacheKeyData_injective (p1 p2 : String) (u1 u2 : Nat)
    (h : cacheKeyData p1 u1 = cacheKeyData p2 u2) : p1 = p2 ∧ u1 = u2 := by
  have h' := congrArg String.data h
  rw [cacheKeyData_data, cacheKeyData_data] at h'
  obtain ⟨ha, hb⟩ := colon_split _ _ _ _ (repr_isDigit u1) (repr_isDigit u2) h'
  refine ⟨?_, repr_injective _ _ (String.ext hb)⟩
  exact String.ext (List.append_cancel_right ha)

/-! ## Hexadecimal encoding and the key namespace -/

theorem hexDigit_injective : ∀ a b : Fin 16, hexDigit a.val = hexDigit b.val → a = b := by
  decide

theorem hexDigit_mem : ∀ a : Fin 16, hexDigit a.val ∈ hextable := by
  decide

theorem hexDigit_mem_of_lt (n : Nat) (h : n < 16) : hexDigit n ∈ hextable :=
  hexDigit_mem ⟨n, h⟩

theorem hexDigit_inj_of_lt (n m : Nat) (hn : n < 16) (hm : m < 16)
    (h : hexDigit n = hexDigit m) : n = m :=
  congrArg Fin.val (hexDigit_injective ⟨n, hn⟩ ⟨m, hm⟩ h)

theorem hexEncode_length (l : List Byte) : (hexEncode l).length = 2 * l.length := by
  induction l with
  | nil => rfl
  | cons v rest ih => simp [hexEncode, ih]; omega

theorem hexEncode_mem (l : List Byte) : ∀ c ∈ hexEncode l, c ∈ hextable := by
  induction l with
  | nil => intro c h; simp [hexEncode] at h
  | cons v rest ih =>
    intro c h
    simp only [hexEncode, List.mem_cons] at h
    rcases h with h | h | h
    · subst h; exact hexDigit_mem_of_lt _ (by omega)
    · subst h; exact hexDigit_mem_of_lt _ (Nat.mod_lt _ (by decide))
    · exact ih c h

theorem hexEncode_injective (l1 : List Byte) : ∀ l2 : List Byte,
    hexEncode l1 = hexEncode l2 → l1 = l2 := by
  induction l1 with
  | nil =>
    intro l2 h
    cases l2 with
    | nil => rfl
    | cons w s => simp [hexEncode] at h
  | cons v r ih =>
    intro l2 h
    cases l2 with
    | nil => simp [hexEncode] at h
    | cons w s =>
      simp only [hexEncode, List.cons.injEq] at h
      obtain ⟨h1, h2, h3⟩ := h
      have e1 := hexDigit_inj_of_lt _ _ (by omega) (by omega) h1
      have e2 := hexDigit_inj_of_lt _ _ (Nat.mod_lt _ (by decide)) (Nat.mod_lt _ (by decide)) h2
      have : v = w := Fin.ext (by omega)
      rw [this, ih s h3]

theorem generateCacheKey_data (md5 : String → Digest) (p : String) (u : Nat) :
    (generateCacheKey md5 p u).data
      = ['c', 'a', 'c', 'h', 'e', ':'] ++ hexEncode (md5 (cacheKeyData p u)).val := by
  simp [generateCacheKey, EncodeToString, String.data_append]

theorem generateCacheKey_eq_iff (md5 : String → Digest) (p1 p2 : String) (u1 u2 : Nat) :
    generateCacheKey md5 p1 u1 = generateCacheKey md5 p2 u2
      ↔ md5 (cacheKeyData p1 u1) = md5 (cacheKeyData p2 u2) := by
  constructor
  · intro h
    have h' := congrArg String.data h
    rw [generateCacheKey_data, generateCacheKey_data] at h'
    exact Subtype.ext (hexEncode_injective _ _ (List.append_cancel_left h'))
  · intro h
    simp [generateCacheKey, h]

theorem anySuffix_of_nil (f : List Char → Bool) (h : f [] = true) :
    ∀ s, anySuffix f s = true := by
  intro s
  induction s with
  | nil => simpa [anySuffix] using h
  | cons c s ih => simp [anySuffix, ih]

theorem globMatchChars_cache_star (k : List Char) :
    globMatchChars ['c', 'a', 'c', 'h', 'e', ':', '*'] k = true
      ↔ ∃ t, k = ['c', 'a', 'c', 'h', 'e', ':'] ++ t := by
  constructor
  · intro h
    rcases k with _ | ⟨c1, _ | ⟨c2, _ | ⟨c3, _ | ⟨c4, _ | ⟨c5, _ | ⟨c6, t⟩⟩⟩⟩⟩⟩ <;>
      simp [globMatchChars] at h
    obtain ⟨h1, h2, h3, h4, h5, h6, _⟩ := h
    subst h1 h2 h3 h4 h5 h6
    exact ⟨t, rfl⟩
  · rintro ⟨t, rfl⟩
    simp [globMatchChars]
    exact anySuffix_of_nil _ (by simp [globMatchChars]) t

theorem globMatch_cache_star (k : String) :
    globMatch "cache:*" k = true ↔ ∃ t : String, k = "cache:" ++ t := by
  unfold globMatch
  rw [show ("cache:*" : String).data = ['c', 'a', 'c', 'h', 'e', ':', '*'] from rfl,
    globMatchChars_cache_star]
  constructor
  · rintro ⟨t, ht⟩
    exact ⟨String.mk t, String.ext (by simp [ht, String.data_append])⟩
  · rintro ⟨t, rfl⟩
    exact ⟨t.data, by simp [String.data_append]⟩

theorem UploadFile_pattern (env : UploadEnv) (w : World) (p : String)
    (h : Event.deleteCachePattern p ∈ (UploadFile env w).events) :
    Event.deleteCachePattern p ∈ w.events ∨ p = "cache:*" := by
  unfold UploadFile at h
  simp only [ErrorResponse, SuccessResponse, World.DeleteCachePattern] at h
  repeat' split at h
  all_goals simp at h
  all_goals tauto

theorem DeleteFile_pattern (env : RecordEnv) (w : World) (p : String)
    (h : Event.deleteCachePattern p ∈ (DeleteFile env w).events) :
    Event.deleteCachePattern p ∈ w.events ∨ p = "cache:*" := by
  unfold DeleteFile at h
  simp only [ErrorResponse, SuccessResponse, World.DeleteCachePattern] at h
  repeat' split at h
  all_goals simp at h
  all_goals tauto

/-- C1: the key of equal (path, user) pairs is the same; pairs that differ in
either component give different strings `<path>:user:<decimal id>` to the hash,
and then the keys are equal exactly when MD5 collides on those two strings. -/
theorem generateCacheKey_unique (md5 : String → Digest) (p1 p2 : String) (u1 u2 : Nat) :
    ((p1, u1) = (p2, u2) → generateCacheKey md5 p1 u1 = generateCacheKey md5 p2 u2) ∧
    ((p1, u1) ≠ (p2, u2) → cacheKeyData p1 u1 ≠ cacheKeyData p2 u2) ∧
    (generateCacheKey md5 p1 u1 = generateCacheKey md5 p2 u2
      ↔ md5 (cacheKeyData p1 u1) = md5 (cacheKeyData p2 u2)) := by
  refine ⟨?_, ?_, generateCacheKey_eq_iff md5 p1 p2 u1 u2⟩
  · intro h
    cases h
    rfl
  · intro h heq
    obtain ⟨hp, hu⟩ := cacheKeyData_injective p1 p2 u1 u2 heq
    exact h (by rw [hp, hu])

/-- C2: every key is `"cache:"` followed by 32 lowercase hexadecimal characters, so
it matches the pattern `"cache:*"`, and that is the only pattern `UploadFile` and
`DeleteFile` pass to `DeleteCachePattern`. -/
theorem generateCacheKey_in_scope (md5 : String → Digest) (path : String) (userID : Nat) :
    (∃ hex : List Char,
      generateCacheKey md5 path userID = "cache:" ++ String.mk hex ∧
      hex.length = 32 ∧ ∀ c ∈ hex, c ∈ hextable) ∧
    globMatch "cache:*" (generateCacheKey md5 path userID) = true ∧
    (∀ (env : UploadEnv) (rc : Option Client) (r : Request) (p : String),
      Event.deleteCachePattern p ∈ (UploadFile env (World.new rc r)).events →
        globMatch p (generateCacheKey md5 path userID) = true) ∧
    (∀ (env : RecordEnv) (rc : Option Client) (r : Request) (p : String),
      Event.deleteCachePattern p ∈ (DeleteFile env (World.new rc r)).events →
        globMatch p (generateCacheKey md5 path userID) = true) := by
  have hm : globMatch "cache:*" (generateCacheKey md5 path userID) = true :=
    (globMatch_cache_star _).2 ⟨EncodeToString (md5 (cacheKeyData path userID)).val, rfl⟩
  refine ⟨⟨hexEncode (md5 (cacheKeyData path userID)).val, rfl, ?_, hexEncode_mem _⟩, hm, ?_, ?_⟩
  · rw [hexEncode_length, (md5 (cacheKeyData path userID)).property]
  · intro env rc r p h
    rcases UploadFile_pattern env _ p h with h | h
    · simp [World.new] at h
    · rw [h]; exact hm
  · intro env rc r p h
    rcases DeleteFile_pattern env _ p h with h | h
    · simp [World.new] at h
    · rw [h]; exact hm

/-! ## The handler chain -/

theorem foldl_apply (ops : List WriterOp) : ∀ w : World,
    ops.foldl World.apply w =
      { w with writer := ops.foldl ResponseWriter.apply w.writer
               capture := w.capture.map (fun body => body ++ bytesWritten ops) } := by
  induction ops with
  | nil => intro w; cases w; simp [bytesWritten]
  | cons op ops ih =>
    intro w
    rw [List.foldl_cons, ih]
    cases op <;> cases hc : w.capture <;>
      simp [World.apply, World.Write, ResponseWriter.apply, bytesWritten, hc, String.append_assoc]

theorem invoke_eq (h : Handler) (w : World) :
    w.invoke h =
      { w with events := w.events ++ [Event.handler w.writer.header]
               writer := (h w.request).foldl ResponseWriter.apply w.writer
               capture := w.capture.map (fun body => body ++ bytesWritten (h w.request)) } := by
  simp [World.invoke, foldl_apply]

theorem serve_passthrough (md5 : String → Digest) (d : Nat) (h : Handler)
    (rc : Option Client) (r : Request) (hp : rc = none ∨ r.method ≠ "GET") :
    serve md5 d h (World.new rc r) =
      { World.new rc r with
        index := 3
        events := [Event.handler []]
        writer := h.response r } := by
  rcases hp with hp | hp
  · subst hp
    simp [serve, CacheMiddleware, World.new, World.Next, World.loop, invoke_eq, Handler.response,
      ResponseWriter.fresh]
  · by_cases hrc : rc = none
    · subst hrc
      simp [serve, CacheMiddleware, World.new, World.Next, World.loop, invoke_eq,
        Handler.response, ResponseWriter.fresh]
    · simp [serve, CacheMiddleware, World.new, World.Next, World.loop, invoke_eq,
        Handler.response, ResponseWriter.fresh, hrc, hp]

theorem serve_hit (md5 : String → Digest) (d : Nat) (h : Handler) (c : Client) (r : Request)
    (v : String) (hm : r.method = "GET")
    (hget : (c.Get (generateCacheKey md5 r.path r.GetUint)).1 = (v, none)) (hv : v ≠ "") :
    serve md5 d h (World.new (some c) r) =
      { RedisClient := some (c.Get (generateCacheKey md5 r.path r.GetUint)).2
        request := r
        writer :=
          { status := 200
            header := [("Content-Type", "application/json"), ("X-Cache", "HIT")]
            written := true
            body := v }
        capture := none
        index := 64
        events := [Event.getCache (generateCacheKey md5 r.path r.GetUint)] } := by
  have hl : List.lookup "Content-Type" [("X-Cache", "HIT")] = none := by decide
  simp [serve, CacheMiddleware, World.new, World.GetCache, GetCache, hm, hget, hv, World.Data, hl,
    World.Abort, World.Write, World.loop, abortIndex, bodyAllowedForStatus, writeContentType,
    ResponseWriter.fresh, ResponseWriter.Header, ResponseWriter.Set, ResponseWriter.Get,
    ResponseWriter.WriteHeader, ResponseWriter.Write, ResponseWriter.WriteHeaderNow]

theorem serve_miss (md5 : String → Digest) (d : Nat) (h : Handler) (c : Client) (r : Request)
    (hm : r.method = "GET")
    (hmiss : ¬ ((c.Get (generateCacheKey md5 r.path r.GetUint)).1.2 = none ∧
      (c.Get (generateCacheKey md5 r.path r.GetUint)).1.1 ≠ "")) :
    serve md5 d h (World.new (some c) r) =
      { RedisClient :=
          if ((h r).foldl ResponseWriter.apply
              (ResponseWriter.fresh.Header "X-Cache" "MISS")).status = 200 then
            some ((c.Get (generateCacheKey md5 r.path r.GetUint)).2.Set
              (generateCacheKey md5 r.path r.GetUint) (bytesWritten (h r)) d).2
          else some (c.Get (generateCacheKey md5 r.path r.GetUint)).2
        request := r
        writer := (h r).foldl ResponseWriter.apply (ResponseWriter.fresh.Header "X-Cache" "MISS")
        capture := some (bytesWritten (h r))
        index := 3
        events :=
          [Event.getCache (generateCacheKey md5 r.path r.GetUint),
            Event.handler [("X-Cache", "MISS")]] ++
          if ((h r).foldl ResponseWriter.apply
              (ResponseWriter.fresh.Header "X-Cache" "MISS")).status = 200 then
            [Event.setCache (generateCacheKey md5 r.path r.GetUint) (bytesWritten (h r)) d]
          else [] } := by
  simp only [serve, CacheMiddleware, World.new, World.GetCache, GetCache, hm]
  simp only [reduceCtorEq, ne_eq, not_true_eq_false, ↓reduceIte, hmiss]
  simp only [World.Next, World.loop, invoke_eq]
  simp [World.SetCache, SetCache, ResponseWriter.fresh, ResponseWriter.Header, ResponseWriter.Set]
  split <;> simp

/-! ## The response writer -/

theorem apply_body (op : WriterOp) (wr : ResponseWriter) :
    (wr.apply op).body = wr.body ++ bytesWritten [op] := by
  cases op <;>
    simp only [ResponseWriter.apply, bytesWritten, ResponseWriter.Header, ResponseWriter.Set,
      ResponseWriter.Del, ResponseWriter.WriteHeader, ResponseWriter.Write,
      ResponseWriter.WriteHeaderNow, String.append_empty] <;>
    split_ifs <;> rfl

theorem bytesWritten_cons (op : WriterOp) (ops : List WriterOp) :
    bytesWritten (op :: ops) = bytesWritten [op] ++ bytesWritten ops := by
  cases op <;> simp [bytesWritten]

theorem fold_body (ops : List WriterOp) : ∀ wr : ResponseWriter,
    (ops.foldl ResponseWriter.apply wr).body = wr.body ++ bytesWritten ops := by
  induction ops with
  | nil => intro wr; simp [bytesWritten]
  | cons op ops ih =>
    intro wr
    rw [List.foldl_cons, ih, apply_body, bytesWritten_cons op ops, String.append_assoc]

theorem apply_status_written (op : WriterOp) (wr1 wr2 : ResponseWriter)
    (hs : wr1.status = wr2.status) (hw : wr1.written = wr2.written) :
    (wr1.apply op).status = (wr2.apply op).status ∧
      (wr1.apply op).written = (wr2.apply op).written := by
  cases op <;>
    simp only [ResponseWriter.apply, ResponseWriter.Header, ResponseWriter.Set,
      ResponseWriter.Del, ResponseWriter.WriteHeader, ResponseWriter.Write,
      ResponseWriter.WriteHeaderNow, hs, hw] <;>
    (try split_ifs) <;> simp_all

theorem fold_status_written (ops : List WriterOp) : ∀ wr1 wr2 : ResponseWriter,
    wr1.status = wr2.status → wr1.written = wr2.written →
    (ops.foldl ResponseWriter.apply wr1).status = (ops.foldl ResponseWriter.apply wr2).status ∧
      (ops.foldl ResponseWriter.apply wr1).written =
        (ops.foldl ResponseWriter.apply wr2).written := by
  induction ops with
  | nil => intro wr1 wr2 hs hw; exact ⟨hs, hw⟩
  | cons op ops ih =>
    intro wr1 wr2 hs hw
    rw [List.foldl_cons, List.foldl_cons]
    exact ih _ _ (apply_status_written op wr1 wr2 hs hw).1 (apply_status_written op wr1 wr2 hs hw).2

theorem miss_status (h : Handler) (r : Request) :
    ((h r).foldl ResponseWriter.apply (ResponseWriter.fresh.Header "X-Cache" "MISS")).status
      = (h.response r).status :=
  (fold_status_written (h r) (ResponseWriter.fresh.Header "X-Cache" "MISS") ResponseWriter.fresh
    (by simp [ResponseWriter.Header, ResponseWriter.Set, ResponseWriter.fresh])
    (by simp [ResponseWriter.Header, ResponseWriter.Set, ResponseWriter.fresh])).1

theorem miss_body (h : Handler) (r : Request) :
    ((h r).foldl ResponseWriter.apply (ResponseWriter.fresh.Header "X-Cache" "MISS")).body
      = (h.response r).body := by
  unfold Handler.response
  rw [fold_body, fold_body]
  simp [ResponseWriter.Header, ResponseWriter.Set, ResponseWriter.fresh]

theorem response_body (h : Handler) (r : Request) : (h.response r).body = bytesWritten (h r) := by
  unfold Handler.response
  rw [fold_body]
  rfl

theorem lookup_filter_key {β : Type} (q : String → Bool) (key : String) (hq : q key = true)
    (l : List (String × β)) :
    List.lookup key (l.filter (fun kv => q kv.1)) = List.lookup key l := by
  induction l with
  | nil => rfl
  | cons kv l ih =>
    obtain ⟨a, b⟩ := kv
    by_cases ha : q a = true
    · simp only [List.filter, ha, List.lookup]
      rw [ih]
    · have hne : (key == a) = false := by
        simp only [beq_eq_false_iff_ne, ne_eq]
        intro e
        exact ha (e ▸ hq)
      have ha' : q a = false := by simpa using ha
      simp only [List.filter, ha', List.lookup, hne]
      exact ih

theorem lookup_filter_ne (key k : String) (hk : key ≠ k) (l : List (String × String)) :
    List.lookup key (l.filter (fun kv => kv.1 != k)) = List.lookup key l :=
  lookup_filter_key (fun a => a != k) key (by simpa using hk) l

theorem apply_get (key : String) (op : WriterOp) (wr : ResponseWriter)
    (hop : ∀ k v, op = WriterOp.header k v → k ≠ key) :
    (wr.apply op).Get key = wr.Get key := by
  cases op with
  | header k v =>
    have hk : key ≠ k := fun e => hop k v rfl e.symm
    have hb : (key == k) = false := by simpa using hk
    simp only [ResponseWriter.apply, ResponseWriter.Header, ResponseWriter.Set,
      ResponseWriter.Del, ResponseWriter.Get]
    repeat' split
    all_goals simp [List.lookup, hb, lookup_filter_ne key k hk]
  | status code =>
    simp only [ResponseWriter.apply, ResponseWriter.WriteHeader, ResponseWriter.Get]
    repeat' split
    all_goals rfl
  | write data => rfl

theorem fold_get (key : String) (ops : List WriterOp) : ∀ wr : ResponseWriter,
    (∀ k v, WriterOp.header k v ∈ ops → k ≠ key) →
    (ops.foldl ResponseWriter.apply wr).Get key = wr.Get key := by
  induction ops with
  | nil => intro wr _; rfl
  | cons op ops ih =>
    intro wr hops
    rw [List.foldl_cons, ih _ (fun k v hm => hops k v (List.mem_cons_of_mem _ hm))]
    exact apply_get key op wr (fun k v e => hops k v (by rw [e]; exact List.mem_cons_self _ _))

theorem command_entries (c : Client) : c.command.2.entries = c.entries := by
  unfold Client.command
  cases c.faults <;> rfl

theorem Get_entries (c : Client) (key : String) : (c.Get key).2.entries = c.entries := by
  have hc := command_entries c
  unfold Client.Get
  generalize c.command = p at hc
  rcases p with ⟨b, c1⟩
  cases b
  · simp only
    split <;> exact hc
  · exact hc

/-! ## Hit, miss and pass-through -/

/-- C3: on a GET with the store available, when the lookup of the derived key returns a
non-empty value `v` and no error, the response is 200 with `Content-Type:
application/json`, `X-Cache: HIT` and body `v`; the only event is the lookup (the
wrapped handler is not entered, `SetCache` is not called) and the entries of the
store are unchanged. -/
theorem CacheMiddleware_hit (md5 : String → Digest) (d : Nat) (h : Handler) (c : Client)
    (r : Request) (v : String) (hm : r.method = "GET")
    (hget : (GetCache (r.cacheKey md5) (some c)).1 = (v, none)) (hv : v ≠ "") :
    (serve md5 d h (World.new (some c) r)).writer.status = 200 ∧
    (serve md5 d h (World.new (some c) r)).writer.Get "Content-Type" = some "application/json" ∧
    (serve md5 d h (World.new (some c) r)).writer.Get "X-Cache" = some "HIT" ∧
    (serve md5 d h (World.new (some c) r)).writer.body = v ∧
    (serve md5 d h (World.new (some c) r)).events = [Event.getCache (r.cacheKey md5)] ∧
    (serve md5 d h (World.new (some c) r)).RedisClient.map Client.entries = some c.entries := by
  have hget' : (c.Get (generateCacheKey md5 r.path r.GetUint)).1 = (v, none) := hget
  rw [serve_hit md5 d h c r v hm hget' hv]
  refine ⟨rfl, by simp [ResponseWriter.Get, List.lookup], ?_, rfl, rfl, ?_⟩
  · simp only [ResponseWriter.Get]
    decide
  simp [Get_entries]

/-- The hypotheses of C3 hold of the stored response of `cachedClient`. -/
theorem CacheMiddleware_hit_witness :
    (serve exampleMd5 300 exampleHandler (World.new (some cachedClient) exampleRequest)).writer.status
      = 200 ∧
    (serve exampleMd5 300 exampleHandler (World.new (some cachedClient) exampleRequest)).writer.Get
      "Content-Type" = some "application/json" ∧
    (serve exampleMd5 300 exampleHandler (World.new (some cachedClient) exampleRequest)).writer.Get
      "X-Cache" = some "HIT" ∧
    (serve exampleMd5 300 exampleHandler (World.new (some cachedClient) exampleRequest)).writer.body
      = "[3,4]" ∧
    (serve exampleMd5 300 exampleHandler (World.new (some cachedClient) exampleRequest)).events
      = [Event.getCache (exampleRequest.cacheKey exampleMd5)] ∧
    (serve exampleMd5 300 exampleHandler
      (World.new (some cachedClient) exampleRequest)).RedisClient.map Client.entries
      = some cachedClient.entries :=
  CacheMiddleware_hit exampleMd5 300 exampleHandler cachedClient exampleRequest
    "[3,4]" (by decide) (by decide) (by decide)

/-- C4: on a GET with the store available, when the lookup fails or returns the empty
string, the wrapped handler is entered exactly once, with `X-Cache: MISS` set, and
`SetCache` is called afterwards exactly when the status of the handler's response is
200, with the derived key, the concatenation of the slices the handler wrote and the
duration of the middleware. -/
theorem CacheMiddleware_miss (md5 : String → Digest) (d : Nat) (h : Handler) (c : Client)
    (r : Request) (hm : r.method = "GET")
    (hmiss : (GetCache (r.cacheKey md5) (some c)).1.2 ≠ none ∨
      (GetCache (r.cacheKey md5) (some c)).1.1 = "") :
    (serve md5 d h (World.new (some c) r)).events =
      [Event.getCache (r.cacheKey md5), Event.handler [("X-Cache", "MISS")]] ++
        (if (h.response r).status = 200 then
          [Event.setCache (r.cacheKey md5) (bytesWritten (h r)) d]
        else []) ∧
    (serve md5 d h (World.new (some c) r)).writer.status = (h.response r).status := by
  have hmiss' : ¬ ((c.Get (generateCacheKey md5 r.path r.GetUint)).1.2 = none ∧
      (c.Get (generateCacheKey md5 r.path r.GetUint)).1.1 ≠ "") := by
    rintro ⟨h1, h2⟩
    rcases hmiss with h3 | h3
    · exact h3 h1
    · exact h2 h3
  rw [serve_miss md5 d h c r hm hmiss']
  simp only [miss_status]
  exact ⟨rfl, trivial⟩

/-- The hypotheses of C4 hold of a store without an entry for the key. -/
theorem CacheMiddleware_miss_witness :
    (serve exampleMd5 300 exampleHandler (World.new (some exampleClient) exampleRequest)).events =
      [Event.getCache (exampleRequest.cacheKey exampleMd5), Event.handler [("X-Cache", "MISS")]] ++
        (if (exampleHandler.response exampleRequest).status = 200 then
          [Event.setCache (exampleRequest.cacheKey exampleMd5)
            (bytesWritten (exampleHandler exampleRequest)) 300]
        else []) ∧
    (serve exampleMd5 300 exampleHandler (World.new (some exampleClient) exampleRequest)).writer.status
      = (exampleHandler.response exampleRequest).status :=
  CacheMiddleware_miss exampleMd5 300 exampleHandler exampleClient exampleRequest (by decide)
    (Or.inl (by decide))

/-- C8: when `RedisClient` is nil or the method is not GET, the wrapped handler is
entered exactly once and nothing else happens: the response is the one the handler
produces alone, and the store is neither looked up nor written. -/
theorem CacheMiddleware_passthrough (md5 : String → Digest) (d : Nat) (h : Handler)
    (rc : Option Client) (r : Request) (hp : rc = none ∨ r.method ≠ "GET") :
    (serve md5 d h (World.new rc r)).events = [Event.handler []] ∧
    (serve md5 d h (World.new rc r)).writer = h.response r ∧
    (serve md5 d h (World.new rc r)).RedisClient = rc := by
  rw [serve_passthrough md5 d h rc r hp]
  exact ⟨rfl, rfl, rfl⟩

/-- The hypothesis of C8 holds of a POST request on an available store. -/
theorem CacheMiddleware_passthrough_witness :
    (serve exampleMd5 300 exampleHandler
        (World.new (some cachedClient) { exampleRequest with method := "POST" })).events
      = [Event.handler []] ∧
    (serve exampleMd5 300 exampleHandler
        (World.new (some cachedClient) { exampleRequest with method := "POST" })).writer
      = exampleHandler.response { exampleRequest with method := "POST" } ∧
    (serve exampleMd5 300 exampleHandler
        (World.new (some cachedClient) { exampleRequest with method := "POST" })).RedisClient
      = some cachedClient :=
  CacheMiddleware_passthrough exampleMd5 300 exampleHandler (some cachedClient)
    { exampleRequest with method := "POST" } (Or.inr (by decide))

/-! ## The store -/

theorem lookup_eq_none {β : Type} (key : String) (l : List (String × β))
    (h : ∀ kv ∈ l, kv.1 ≠ key) : List.lookup key l = none := by
  induction l with
  | nil => rfl
  | cons kv l ih =>
    obtain ⟨a, b⟩ := kv
    have hne : (key == a) = false := by
      simp only [beq_eq_false_iff_ne, ne_eq]
      intro e
      exact h (a, b) (List.mem_cons_self _ _) e.symm
    simp only [List.lookup, hne]
    exact ih (fun kv hkv => h kv (List.mem_cons_of_mem _ hkv))

theorem Get_of_lookup_none (c : Client) (key : String) (h : List.lookup key c.entries = none) :
    (c.Get key).1.2 ≠ none := by
  have hc := command_entries c
  unfold Client.Get
  generalize c.command = p at hc
  rcases p with ⟨b, c1⟩
  cases b
  · simp only at hc ⊢
    rw [hc, h]
    simp
  · simp

theorem Get_no_fault (c : Client) (key : String) (hf : c.faults = []) :
    c.Get key =
      (match List.lookup key c.entries with
        | none => (("", some StoreError.nil), c)
        | some e => ((e.value, none), c)) := by
  unfold Client.Get Client.command
  rw [hf]

theorem Set_no_fault (c : Client) (key value : String) (d : Nat) (hf : c.faults = []) :
    (c.Set key value d).2 =
      { c with entries :=
          (key, { value := value, expiresAt := if d = 0 then none else some (c.now + d) }) ::
            c.entries.filter (fun kv => kv.1 != key) } := by
  unfold Client.Set Client.command
  rw [hf]
  simp [hf]

theorem deleteScanned_entries (ks : List String) : ∀ c : Client,
    (deleteScanned ks c).1 = none →
    (deleteScanned ks c).2.entries = c.entries.filter (fun kv => !ks.contains kv.1) := by
  induction ks with
  | nil =>
    intro c _
    have hc := command_entries c
    unfold deleteScanned
    generalize c.command = p at hc
    rcases p with ⟨b, c1⟩
    cases b <;> simpa using hc
  | cons k ks ih =>
    intro c hok
    have hc := command_entries c
    unfold deleteScanned at hok ⊢
    generalize c.command = p at hc hok
    rcases p with ⟨b, c1⟩
    cases b
    · simp only at hc hok ⊢
      have hd := command_entries c1
      unfold Client.Del at hok ⊢
      generalize c1.command = q at hd hok
      rcases q with ⟨b2, c2⟩
      cases b2
      · simp only at hd hok ⊢
        rw [ih _ hok]
        simp only [List.filter_filter, hd, hc]
        apply List.filter_congr
        intro kv _
        by_cases hk : kv.1 = k <;> simp [hk, List.contains_cons, bne, Bool.and_comm]
      · simp at hok
    · simp at hok

theorem scanKeys_contains (c : Client) (p : String) (kv : String × Entry) (hkv : kv ∈ c.entries) :
    (c.scanKeys p).contains kv.1 = globMatch p kv.1 := by
  unfold Client.scanKeys
  by_cases hg : globMatch p kv.1 = true
  · rw [hg]
    simp only [List.contains_iff_exists_mem_beq, List.mem_filter, List.mem_map]
    exact ⟨kv.1, ⟨⟨kv, hkv, rfl⟩, hg⟩, by simp⟩
  · have hg' : globMatch p kv.1 = false := by simpa using hg
    rw [hg']
    apply Bool.eq_false_iff.2
    intro h
    simp only [List.contains_iff_exists_mem_beq, List.mem_filter, List.mem_map] at h
    obtain ⟨a, ⟨_, ha⟩, hb⟩ := h
    have : kv.1 = a := by simpa using hb
    rw [this, ha] at hg'
    exact Bool.noConfusion hg'

theorem DeleteCachePattern_entries (p : String) (c c' : Client)
    (h : DeleteCachePattern p (some c) = (none, some c')) :
    c'.entries = c.entries.filter (fun kv => !globMatch p kv.1) := by
  simp only [DeleteCachePattern, Prod.mk.injEq, Option.some.injEq] at h
  obtain ⟨h1, h2⟩ := h
  rw [← h2, deleteScanned_entries _ _ h1]
  apply List.filter_congr
  intro kv hkv
  rw [scanKeys_contains c p kv hkv]

/-! ## Two requests in a row -/

theorem first_request_store (md5 : String → Digest) (d : Nat) (h : Handler) (c : Client)
    (r : Request) (hm : r.method = "GET") (hf : c.faults = [])
    (hk : List.lookup (r.cacheKey md5) c.entries = none)
    (hs : (h.response r).status = 200) :
    serve md5 d h (World.new (some c) r) =
      { RedisClient := some
          { c with entries :=
              (r.cacheKey md5,
                { value := bytesWritten (h r)
                  expiresAt := if d = 0 then none else some (c.now + d) }) ::
              c.entries.filter (fun kv => kv.1 != r.cacheKey md5) }
        request := r
        writer := (h r).foldl ResponseWriter.apply (ResponseWriter.fresh.Header "X-Cache" "MISS")
        capture := some (bytesWritten (h r))
        index := 3
        events :=
          [Event.getCache (r.cacheKey md5), Event.handler [("X-Cache", "MISS")],
            Event.setCache (r.cacheKey md5) (bytesWritten (h r)) d] } := by
  have hmiss : ¬ ((c.Get (generateCacheKey md5 r.path r.GetUint)).1.2 = none ∧
      (c.Get (generateCacheKey md5 r.path r.GetUint)).1.1 ≠ "") :=
    fun hh => Get_of_lookup_none c _ hk hh.1
  have hg : (c.Get (generateCacheKey md5 r.path r.GetUint)).2 = c := by
    have hk' : List.lookup (generateCacheKey md5 r.path r.GetUint) c.entries = none := hk
    rw [Get_no_fault c _ hf, hk']
  rw [serve_miss md5 d h c r hm hmiss]
  simp only [miss_status, hs, if_true, hg, Set_no_fault c _ _ d hf, Request.cacheKey]
  rfl

theorem elapse_lookup_head (c : Client) (key value : String) (d dt : Nat) (hdt : dt < d)
    (rest : List (String × Entry)) :
    List.lookup key
      (Client.elapse dt
        { c with entries :=
            (key, { value := value, expiresAt := if d = 0 then none else some (c.now + d) }) ::
              rest }).entries
      = some { value := value, expiresAt := if d = 0 then none else some (c.now + d) } := by
  have hd : d ≠ 0 := by omega
  have hl : decide (c.now + dt < c.now + d) = true := by simpa using hdt
  simp [Client.elapse, List.filter, Entry.live, hd, hl, hdt, List.lookup]

/-- C5: with an available store that has no entry for the key and does not fail, and a
handler that answers 200 with a non-empty body `b` (and leaves `X-Cache` alone), the
same GET issued twice, the second time less than the TTL after the first, yields
`X-Cache: MISS` with body `b` and then `X-Cache: HIT` with the same body `b`; the
handler is entered during the first request only. -/
theorem CacheMiddleware_miss_then_hit (md5 : String → Digest) (d dt : Nat) (h : Handler)
    (c : Client) (r : Request) (b : String)
    (hm : r.method = "GET") (hf : c.faults = [])
    (hk : List.lookup (r.cacheKey md5) c.entries = none)
    (hs : (h.response r).status = 200) (hb : (h.response r).body = b) (hne : b ≠ "")
    (hx : ∀ k v, WriterOp.header k v ∈ h r → k ≠ "X-Cache")
    (hdt : dt < d) :
    (serve md5 d h (World.new (some c) r)).writer.Get "X-Cache" = some "MISS" ∧
    (serve md5 d h (World.new (some c) r)).writer.body = b ∧
    (serve md5 d h (World.new (some c) r)).events =
      [Event.getCache (r.cacheKey md5), Event.handler [("X-Cache", "MISS")],
        Event.setCache (r.cacheKey md5) b d] ∧
    (serve md5 d h (World.new
      ((serve md5 d h (World.new (some c) r)).RedisClient.map (Client.elapse dt)) r)).writer.Get
        "X-Cache" = some "HIT" ∧
    (serve md5 d h (World.new
      ((serve md5 d h (World.new (some c) r)).RedisClient.map (Client.elapse dt)) r)).writer.body
        = b ∧
    (serve md5 d h (World.new
      ((serve md5 d h (World.new (some c) r)).RedisClient.map (Client.elapse dt)) r)).events
        = [Event.getCache (r.cacheKey md5)] := by
  have hbw : bytesWritten (h r) = b := by rw [← response_body, hb]
  rw [first_request_store md5 d h c r hm hf hk hs]
  simp only [Option.map_some', hbw]
  have hget : ((Client.elapse dt
      { c with entries :=
          (r.cacheKey md5, { value := b, expiresAt := if d = 0 then none else some (c.now + d) }) ::
            c.entries.filter (fun kv => kv.1 != r.cacheKey md5) }).Get
        (generateCacheKey md5 r.path r.GetUint)).1 = (b, none) := by
    rw [Get_no_fault _ _ (by simp [Client.elapse, hf])]
    have := elapse_lookup_head c (r.cacheKey md5) b d dt hdt
      (c.entries.filter (fun kv => kv.1 != r.cacheKey md5))
    unfold Request.cacheKey at this
    unfold Request.cacheKey
    rw [this]
  rw [serve_hit md5 d h _ r b hm hget hne]
  refine ⟨?_, ?_, trivial, ?_, rfl, rfl⟩
  · rw [fold_get "X-Cache" (h r) _ hx]
    simp only [ResponseWriter.Get]
    decide
  · rw [miss_body, hb]
  · simp only [ResponseWriter.Get]
    decide

/-- The hypotheses of C5 hold of `exampleHandler` on a store without cached
responses, the second request coming 299 units of time after the first for a
duration of 300. -/
theorem CacheMiddleware_miss_then_hit_witness :
    (serve exampleMd5 300 exampleHandler (World.new (some exampleClient) exampleRequest)).writer.Get
      "X-Cache" = some "MISS" ∧
    (serve exampleMd5 300 exampleHandler (World.new (some exampleClient) exampleRequest)).writer.body
      = "[3,4]" ∧
    (serve exampleMd5 300 exampleHandler (World.new (some exampleClient) exampleRequest)).events =
      [Event.getCache (exampleRequest.cacheKey exampleMd5), Event.handler [("X-Cache", "MISS")],
        Event.setCache (exampleRequest.cacheKey exampleMd5) "[3,4]" 300] ∧
    (serve exampleMd5 300 exampleHandler (World.new
      ((serve exampleMd5 300 exampleHandler
        (World.new (some exampleClient) exampleRequest)).RedisClient.map (Client.elapse 299))
      exampleRequest)).writer.Get "X-Cache" = some "HIT" ∧
    (serve exampleMd5 300 exampleHandler (World.new
      ((serve exampleMd5 300 exampleHandler
        (World.new (some exampleClient) exampleRequest)).RedisClient.map (Client.elapse 299))
      exampleRequest)).writer.body = "[3,4]" ∧
    (serve exampleMd5 300 exampleHandler (World.new
      ((serve exampleMd5 300 exampleHandler
        (World.new (some exampleClient) exampleRequest)).RedisClient.map (Client.elapse 299))
      exampleRequest)).events = [Event.getCache (exampleRequest.cacheKey exampleMd5)] :=
  CacheMiddleware_miss_then_hit exampleMd5 300 299 exampleHandler exampleClient exampleRequest
    "[3,4]" (by decide) (by decide) (by decide) (by decide) (by decide)
    (by decide)
    (by
      intro k v hmem
      simp only [exampleHandler, List.mem_cons, WriterOp.header.injEq, reduceCtorEq,
        List.mem_singleton, false_or, or_false, List.not_mem_nil] at hmem
      rw [hmem.1]
      decide)
    (by decide)

/-! ## Invalidation and the marker header -/

theorem cacheKey_namespace (md5 : String → Digest) (r : Request) :
    ∃ t : String, r.cacheKey md5 = "cache:" ++ t :=
  ⟨EncodeToString (md5 (cacheKeyData r.path r.GetUint)).val, rfl⟩

/-- C7: when `DeleteCachePattern("cache:*")` returns nil on an available store, no key
of the store begins with `"cache:"` afterwards, the keys outside that namespace are
bound as before, and the next GET through the middleware, for any path and user,
enters the wrapped handler with `X-Cache: MISS`. -/
theorem DeleteCachePattern_complete (c c' : Client)
    (hdel : DeleteCachePattern "cache:*" (some c) = (none, some c')) :
    (∀ kv ∈ c'.entries, ¬ ∃ t : String, kv.1 = "cache:" ++ t) ∧
    (∀ key : String, (¬ ∃ t : String, key = "cache:" ++ t) →
      List.lookup key c'.entries = List.lookup key c.entries) ∧
    (∀ (md5 : String → Digest) (d : Nat) (h : Handler) (r : Request), r.method = "GET" →
      (serve md5 d h (World.new (some c') r)).events.take 2 =
        [Event.getCache (r.cacheKey md5), Event.handler [("X-Cache", "MISS")]]) := by
  have he := DeleteCachePattern_entries "cache:*" c c' hdel
  have h1 : ∀ kv ∈ c'.entries, ¬ ∃ t : String, kv.1 = "cache:" ++ t := by
    intro kv hkv hex
    rw [he, List.mem_filter] at hkv
    have := (globMatch_cache_star kv.1).2 hex
    rw [this] at hkv
    exact Bool.noConfusion hkv.2
  refine ⟨h1, ?_, ?_⟩
  · intro key hkey
    rw [he]
    apply lookup_filter_key (fun k => !globMatch "cache:*" k) key
    have : globMatch "cache:*" key ≠ true := fun hg => hkey ((globMatch_cache_star key).1 hg)
    simpa using this
  · intro md5 d h r hm
    have hnone : List.lookup (r.cacheKey md5) c'.entries = none :=
      lookup_eq_none _ _ (fun kv hkv e => h1 kv hkv (e ▸ cacheKey_namespace md5 r))
    have hmiss : ¬ ((c'.Get (generateCacheKey md5 r.path r.GetUint)).1.2 = none ∧
        (c'.Get (generateCacheKey md5 r.path r.GetUint)).1.1 ≠ "") :=
      fun hh => Get_of_lookup_none c' _ hnone hh.1
    rw [serve_miss md5 d h c' r hm hmiss]
    rfl

/-- The hypothesis of C7 holds of `cachedClient`: the pattern delete succeeds on it. -/
theorem DeleteCachePattern_complete_witness :
    (∀ kv ∈ exampleClient.entries, ¬ ∃ t : String, kv.1 = "cache:" ++ t) ∧
    (∀ key : String, (¬ ∃ t : String, key = "cache:" ++ t) →
      List.lookup key exampleClient.entries = List.lookup key cachedClient.entries) ∧
    (∀ (md5 : String → Digest) (d : Nat) (h : Handler) (r : Request), r.method = "GET" →
      (serve md5 d h (World.new (some exampleClient) r)).events.take 2 =
        [Event.getCache (r.cacheKey md5), Event.handler [("X-Cache", "MISS")]]) :=
  DeleteCachePattern_complete cachedClient exampleClient (by decide)

/-- C9, as stated, fails: with `RedisClient` nil the response to a GET carries no
`X-Cache` header at all. -/
theorem CacheMiddleware_marker_counterexample :
    ¬ ((serve exampleMd5 300 exampleHandler (World.new none exampleRequest)).writer.Get "X-Cache"
          = some "HIT" ∨
        (serve exampleMd5 300 exampleHandler (World.new none exampleRequest)).writer.Get "X-Cache"
          = some "MISS") := by
  decide

/-- C9, amended: while the store is available, the response to a GET that passes
through the middleware carries `X-Cache: HIT` or `X-Cache: MISS`, the wrapped
handler not setting that header itself; with `RedisClient` nil the middleware adds
no `X-Cache` header. -/
theorem CacheMiddleware_marker (md5 : String → Digest) (d : Nat) (h : Handler) (c : Client)
    (r : Request) (hm : r.method = "GET")
    (hx : ∀ k v, WriterOp.header k v ∈ h r → k ≠ "X-Cache") :
    ((serve md5 d h (World.new (some c) r)).writer.Get "X-Cache" = some "HIT" ∨
      (serve md5 d h (World.new (some c) r)).writer.Get "X-Cache" = some "MISS") ∧
    (serve md5 d h (World.new none r)).writer.Get "X-Cache" = none := by
  constructor
  · by_cases hhit : (c.Get (generateCacheKey md5 r.path r.GetUint)).1.2 = none ∧
        (c.Get (generateCacheKey md5 r.path r.GetUint)).1.1 ≠ ""
    · left
      have hget : (c.Get (generateCacheKey md5 r.path r.GetUint)).1 =
          ((c.Get (generateCacheKey md5 r.path r.GetUint)).1.1, none) :=
        Prod.ext rfl hhit.1
      rw [serve_hit md5 d h c r _ hm hget hhit.2]
      simp only [ResponseWriter.Get]
      decide
    · right
      rw [serve_miss md5 d h c r hm hhit]
      simp only []
      rw [fold_get "X-Cache" (h r) _ hx]
      simp only [ResponseWriter.Get]
      decide
  · rw [serve_passthrough md5 d h none r (Or.inl rfl)]
    simp only [Handler.response]
    rw [fold_get "X-Cache" (h r) _ hx]
    rfl

/-- The hypotheses of the amended C9 hold of `exampleHandler` and `exampleRequest`. -/
theorem CacheMiddleware_marker_witness :
    ((serve exampleMd5 300 exampleHandler (World.new (some exampleClient) exampleRequest)).writer.Get
        "X-Cache" = some "HIT" ∨
      (serve exampleMd5 300 exampleHandler (World.new (some exampleClient) exampleRequest)).writer.Get
        "X-Cache" = some "MISS") ∧
    (serve exampleMd5 300 exampleHandler (World.new none exampleRequest)).writer.Get "X-Cache"
      = none :=
  CacheMiddleware_marker exampleMd5 300 exampleHandler exampleClient exampleRequest (by decide)
    (by
      intro k v hmem
      simp only [exampleHandler, List.mem_cons, WriterOp.header.injEq, reduceCtorEq,
        List.mem_singleton, false_or, or_false, List.not_mem_nil] at hmem
      rw [hmem.1]
      decide)

/-! ## The controllers and the store -/

theorem UploadFile_events (env : UploadEnv) (rc1 rc2 : Option Client) (r : Request) :
    (UploadFile env (World.new rc1 r)).events = (UploadFile env (World.new rc2 r)).events := by
  rcases env with ⟨_ | file, unix, _ | _, _ | id⟩ <;>
    simp only [UploadFile, World.new, ErrorResponse, SuccessResponse, World.DeleteCachePattern] <;>
    split <;> rfl

theorem DeleteFile_events (env : RecordEnv) (rc1 rc2 : Option Client) (r : Request) :
    (DeleteFile env (World.new rc1 r)).events = (DeleteFile env (World.new rc2 r)).events := by
  rcases env with ⟨_ | file, _ | _, _ | _⟩ <;> rfl

/-- C10: the responses of `UploadFile` and of `DeleteFile` do not depend on the state
of the store, hence not on what `DeleteCachePattern` returns; and on the miss path
of a GET the status and the body of the response are those of the wrapped handler,
whatever `GetCache` and `SetCache` return. -/
theorem cache_failure_invisible :
    (∀ (env : UploadEnv) (rc1 rc2 : Option Client) (r : Request),
      (UploadFile env (World.new rc1 r)).replies = (UploadFile env (World.new rc2 r)).replies) ∧
    (∀ (env : RecordEnv) (rc1 rc2 : Option Client) (r : Request),
      (DeleteFile env (World.new rc1 r)).replies = (DeleteFile env (World.new rc2 r)).replies) ∧
    (∀ (md5 : String → Digest) (d : Nat) (h : Handler) (c : Client) (r : Request),
      r.method = "GET" →
      ((GetCache (r.cacheKey md5) (some c)).1.2 ≠ none ∨
        (GetCache (r.cacheKey md5) (some c)).1.1 = "") →
      (serve md5 d h (World.new (some c) r)).writer.status = (h.response r).status ∧
      (serve md5 d h (World.new (some c) r)).writer.body = (h.response r).body) := by
  refine ⟨?_, ?_, ?_⟩
  · intro env rc1 rc2 r
    unfold World.replies
    rw [UploadFile_events env rc1 rc2 r]
  · intro env rc1 rc2 r
    unfold World.replies
    rw [DeleteFile_events env rc1 rc2 r]
  · intro md5 d h c r hm hmiss
    have hmiss' : ¬ ((c.Get (generateCacheKey md5 r.path r.GetUint)).1.2 = none ∧
        (c.Get (generateCacheKey md5 r.path r.GetUint)).1.1 ≠ "") := by
      rintro ⟨h1, h2⟩
      rcases hmiss with h3 | h3
      · exact h3 h1
      · exact h2 h3
    rw [serve_miss md5 d h c r hm hmiss']
    exact ⟨miss_status h r, miss_body h r⟩

/-- The two store states of this example make `DeleteCachePattern` and `GetCache` fail
in one and succeed in the other; the responses are the same. -/
theorem cache_failure_invisible_witness :
    (DeleteCachePattern "cache:*" (some failingClient)).1 = some StoreError.failed ∧
    (DeleteCachePattern "cache:*" (some exampleClient)).1 = none ∧
    (DeleteCachePattern "cache:*" none).1 = some StoreError.notAvailable ∧
    (UploadFile exampleUpload (World.new (some failingClient) exampleMutation)).replies =
      (UploadFile exampleUpload (World.new (some exampleClient) exampleMutation)).replies ∧
    (DeleteFile exampleRecord (World.new none exampleMutation)).replies =
      (DeleteFile exampleRecord (World.new (some exampleClient) exampleMutation)).replies ∧
    (GetCache (exampleRequest.cacheKey exampleMd5) (some failingClient)).1.2
      = some StoreError.failed ∧
    (serve exampleMd5 300 exampleHandler
        (World.new (some failingClient) exampleRequest)).writer.status
      = (exampleHandler.response exampleRequest).status ∧
    (serve exampleMd5 300 exampleHandler
        (World.new (some failingClient) exampleRequest)).writer.body
      = (exampleHandler.response exampleRequest).body :=
  ⟨by decide, by decide, by decide,
    cache_failure_invisible.1 exampleUpload (some failingClient) (some exampleClient)
      exampleMutation,
    cache_failure_invisible.2.1 exampleRecord none (some exampleClient) exampleMutation,
    by decide,
    cache_failure_invisible.2.2 exampleMd5 300 exampleHandler failingClient exampleRequest
      (by decide) (Or.inl (by decide))⟩

/-- C6 does not hold of the code: `HardDeleteFile` and `RestoreFile` change the record
and answer 200 without any call of `DeleteCachePattern`; the store still holds the
response cached before, and the next GET of the listing is a hit that returns it.
`DeleteFile` on the same input does call `DeleteCachePattern("cache:*")` between the
database change and the response. -/
theorem HardDeleteFile_leaves_cache :
    (HardDeleteFile exampleRecord (World.new (some cachedClient) exampleMutation)).events =
      [Event.osRemove "uploads/7_1700000000.png" true, Event.dbUnscopedDelete 3 true,
        Event.respond
          { code := 200, status := "success", message := "File permanently deleted",
            data := some Payload.null }] ∧
    (HardDeleteFile exampleRecord (World.new (some cachedClient) exampleMutation)).RedisClient
      = some cachedClient ∧
    (RestoreFile exampleRecord (World.new (some cachedClient) exampleMutation)).events =
      [Event.dbUpdateDeletedAt 3 true,
        Event.respond
          { code := 200, status := "success", message := "File restored successfully",
            data := some (Payload.file exampleFile) }] ∧
    (RestoreFile exampleRecord (World.new (some cachedClient) exampleMutation)).RedisClient
      = some cachedClient ∧
    (serve exampleMd5 300 exampleHandler
      (World.new
        (HardDeleteFile exampleRecord (World.new (some cachedClient) exampleMutation)).RedisClient
        exampleRequest)).writer.Get "X-Cache" = some "HIT" ∧
    (DeleteFile exampleRecord (World.new (some cachedClient) exampleMutation)).events =
      [Event.osRemove "uploads/7_1700000000.png" true, Event.dbDelete 3 true,
        Event.deleteCachePattern "cache:*",
        Event.respond
          { code := 200, status := "success", message := "File deleted successfully",
            data := some Payload.null }] ∧
    (serve exampleMd5 300 exampleHandler
      (World.new
        (DeleteFile exampleRecord (World.new (some cachedClient) exampleMutation)).RedisClient
        exampleRequest)).writer.Get "X-Cache" = some "MISS" := by
  decide

/-! ## Partial invalidation -/

theorem command_eq (c : Client) :
    c.command = (c.faults.headD false, { c with faults := c.faults.tail }) := by
  obtain ⟨entries, now, faults⟩ := c
  cases faults <;> rfl

theorem Del_eq (c : Client) (k : String) :
    c.Del k =
      if c.faults.headD false = true then
        (some StoreError.failed, { c with faults := c.faults.tail })
      else
        (none, { c with entries := c.entries.filter (fun kv => kv.1 != k)
                        faults := c.faults.tail }) := by
  unfold Client.Del
  rw [command_eq]
  cases c.faults.headD false <;> simp

theorem deleteScanned_nil (c : Client) :
    deleteScanned [] c =
      if c.faults.headD false = true then
        (some StoreError.failed, { c with faults := c.faults.tail })
      else (none, { c with faults := c.faults.tail }) := by
  unfold deleteScanned
  rw [command_eq]
  cases c.faults.headD false <;> simp

theorem deleteScanned_cons (k : String) (ks : List String) (c : Client) :
    deleteScanned (k :: ks) c =
      if c.faults.headD false = true then
        (some StoreError.failed, { c with faults := c.faults.tail })
      else if c.faults.tail.headD false = true then
        (some StoreError.failed, { c with faults := c.faults.tail.tail })
      else
        deleteScanned ks
          { c with entries := c.entries.filter (fun kv => kv.1 != k)
                   faults := c.faults.tail.tail } := by
  rw [deleteScanned, command_eq]
  cases h1 : c.faults.headD false
  · simp only [Del_eq]
    cases h2 : c.faults.tail.headD false <;> simp
  · simp

theorem getD_zero (l : List Bool) : l.getD 0 false = l.headD false := by
  cases l <;> rfl

theorem getD_succ_tail (l : List Bool) (i : Nat) : l.getD (i + 1) false = l.tail.getD i false := by
  cases l <;> simp

theorem deleteScanned_ok_iff (ks : List String) : ∀ c : Client,
    (deleteScanned ks c).1 = none ↔
      ∀ i, i < 2 * ks.length + 1 → c.faults.getD i false = false := by
  induction ks with
  | nil =>
    intro c
    rw [deleteScanned_nil]
    constructor
    · intro h i hi
      have hi0 : i = 0 := by simpa using hi
      subst hi0
      rw [getD_zero]
      cases hh : c.faults.headD false
      · rfl
      · rw [if_pos hh] at h
        cases h
    · intro h
      have := h 0 (by simp)
      rw [getD_zero] at this
      rw [if_neg (by rw [this]; decide)]
  | cons k ks ih =>
    intro c
    rw [deleteScanned_cons]
    constructor
    · intro h i hi
      cases h1 : c.faults.headD false
      · cases h2 : c.faults.tail.headD false
        · rw [if_neg (by rw [h1]; decide), if_neg (by rw [h2]; decide)] at h
          have hrec := (ih _).1 h
          match i with
          | 0 => rw [getD_zero]; exact h1
          | 1 => rw [getD_succ_tail, getD_zero]; exact h2
          | j + 2 =>
            rw [getD_succ_tail, getD_succ_tail]
            exact hrec j (by simp only [List.length_cons] at hi; omega)
        · rw [if_neg (by rw [h1]; decide), if_pos h2] at h
          cases h
      · rw [if_pos h1] at h
        cases h
    · intro h
      have h0 := h 0 (by omega)
      have h1 := h 1 (by simp only [List.length_cons]; omega)
      rw [getD_zero] at h0
      rw [getD_succ_tail, getD_zero] at h1
      rw [if_neg (by rw [h0]; decide), if_neg (by rw [h1]; decide)]
      apply (ih _).2
      intro i hi
      have := h (i + 2) (by simp only [List.length_cons]; omega)
      rw [getD_succ_tail, getD_succ_tail] at this
      exact this

theorem deleteScanned_first_failure (pre : List String) : ∀ (c : Client) (k : String)
    (post : List String) (rest : List Bool),
    c.faults = List.replicate (2 * pre.length + 1) false ++ true :: rest →
    deleteScanned (pre ++ k :: post) c =
      (some StoreError.failed,
        { c with entries := c.entries.filter (fun kv => !pre.contains kv.1)
                 faults := rest }) := by
  induction pre with
  | nil =>
    intro c k post rest hf
    rw [List.nil_append, deleteScanned_cons, hf]
    simp
  | cons p pre ih =>
    intro c k post rest hf
    have hf' : c.faults = false :: false :: (List.replicate (2 * pre.length + 1) false ++ true :: rest) := by
      rw [hf]
      simp only [List.length_cons]
      rw [show 2 * (pre.length + 1) + 1 = (2 * pre.length + 1) + 1 + 1 by omega]
      simp [List.replicate_succ]
    rw [List.cons_append, deleteScanned_cons, hf']
    simp only [List.headD_cons, List.tail_cons, Bool.false_eq_true, if_false]
    rw [ih _ k post rest rfl]
    simp only [List.filter_filter, Prod.mk.injEq, true_and]
    congr 1
    apply List.filter_congr
    intro kv _
    by_cases hk : kv.1 = p <;> simp [hk, List.contains_cons, bne, Bool.and_comm]

theorem parity_split (P : Nat → Prop) (n : Nat) :
    (∀ i, i < 2 * n + 1 → P i) ↔ (∀ i, i < n → P (2 * i + 1)) ∧ (∀ i, i ≤ n → P (2 * i)) := by
  constructor
  · intro h
    exact ⟨fun i hi => h _ (by omega), fun i hi => h _ (by omega)⟩
  · rintro ⟨h1, h2⟩ j hj
    rcases Nat.even_or_odd' j with ⟨m, hm | hm⟩
    · rw [hm]; exact h2 m (by omega)
    · rw [hm]; exact h1 m (by omega)

/-- C11: on an available store `DeleteCachePattern` returns nil exactly when every
deletion (the commands at the odd positions of the fault schedule) and every advance
of the enumeration (the even positions) succeeded; when the deletion of the key `k`
is the first command to fail, the call returns the result of that deletion and issues
no further command, the keys enumerated before `k` are gone and every other entry,
`k` and the keys after it included, is still in the store. -/
theorem DeleteCachePattern_first_failure (pattern : String) (c : Client) :
    ((DeleteCachePattern pattern (some c)).1 = none ↔
      (∀ i, i < (c.scanKeys pattern).length → c.faults.getD (2 * i + 1) false = false) ∧
      (∀ i, i ≤ (c.scanKeys pattern).length → c.faults.getD (2 * i) false = false)) ∧
    (∀ (pre : List String) (k : String) (post : List String) (rest : List Bool),
      c.scanKeys pattern = pre ++ k :: post →
      c.faults = List.replicate (2 * pre.length + 1) false ++ true :: rest →
      DeleteCachePattern pattern (some c) =
        (some StoreError.failed,
          some { c with entries := c.entries.filter (fun kv => !pre.contains kv.1)
                        faults := rest }) ∧
      Client.Del
          { c with entries := c.entries.filter (fun kv => !pre.contains kv.1)
                   faults := true :: rest } k =
        (some StoreError.failed,
          { c with entries := c.entries.filter (fun kv => !pre.contains kv.1)
                   faults := rest })) := by
  constructor
  · show (deleteScanned (c.scanKeys pattern) c).1 = none ↔ _
    rw [deleteScanned_ok_iff]
    exact parity_split (fun i => c.faults.getD i false = false) _
  · intro pre k post rest hks hf
    constructor
    · show ((deleteScanned (c.scanKeys pattern) c).1,
        some (deleteScanned (c.scanKeys pattern) c).2) = _
      rw [hks, deleteScanned_first_failure pre c k post rest hf]
    · rw [Del_eq]
      simp

/-- C11 at `twoKeysClient`: the first key is deleted, the deletion of the second
fails, and the second key is still there. -/
theorem DeleteCachePattern_first_failure_witness :
    DeleteCachePattern "cache:*" (some twoKeysClient) =
      (some StoreError.failed,
        some
          { entries :=
              [("cache:bb", { value := "[2]", expiresAt := some 1300 }),
                ("session:7", { value := "token", expiresAt := none })]
            now := 1000
            faults := [] }) :=
  ((DeleteCachePattern_first_failure "cache:*" twoKeysClient).2 ["cache:aa"] "cache:bb" [] []
    (by decide) (by decide)).1.trans (by decide)

/-! ## Pagination -/

theorem parseDigits_eq (ds : List Char) : ∀ n : Nat, (∀ c ∈ ds, c.isDigit = true) →
    parseDigits ds n = some (ds.foldl (fun a c => 10 * a + (c.toNat - 48)) n) := by
  induction ds with
  | nil => intro n _; rfl
  | cons d ds ih =>
    intro n h
    have hd : d.isDigit = true := h d (List.mem_cons_self _ _)
    rw [parseDigits, if_pos hd, ih _ (fun c hc => h c (List.mem_cons_of_mem _ hc))]
    simp only [List.foldl_cons]
    rw [show ('0' : Char).toNat = 48 from rfl, Nat.mul_comm n 10]

theorem toDigitsCore_ne_nil (f n : Nat) : Nat.toDigitsCore 10 (f + 1) n [] ≠ [] := by
  simp only [Nat.toDigitsCore]
  split
  · simp
  · rw [toDigitsCore_acc]
    simp

theorem Atoi_repr (n : Nat) (hn : n < 2 ^ 63) : Atoi (Nat.repr n) = some (n : Int) := by
  have hdig := repr_isDigit n
  have hval : decValue (Nat.repr n).data = n := by
    rw [repr_data]
    exact decValue_toDigitsCore _ _ (Nat.lt_succ_self n)
  have hne : (Nat.repr n).data ≠ [] := by
    rw [repr_data]
    exact toDigitsCore_ne_nil n n
  unfold Atoi
  cases hdata : (Nat.repr n).data with
  | nil => exact absurd hdata hne
  | cons s0 rest =>
    rw [hdata] at hdig hval
    have h0 : s0.isDigit = true := hdig s0 (List.mem_cons_self _ _)
    have hm : (s0 == '-') = false := by
      rw [beq_eq_false_iff_ne]
      intro e
      rw [e] at h0
      exact absurd h0 (by decide)
    have hp : (s0 == '+') = false := by
      rw [beq_eq_false_iff_ne]
      intro e
      rw [e] at h0
      exact absurd h0 (by decide)
    have hpd : parseDigits (s0 :: rest) 0 = some n := by
      rw [parseDigits_eq _ _ hdig]
      exact congrArg some hval
    simp only [hm, hp, Bool.or_self, Bool.false_eq_true, if_false, List.isEmpty_cons, hpd,
      if_pos hn]

theorem Atoi_empty : Atoi "" = none := rfl

theorem GeneratePagination_Page (r : Request) :
    (GeneratePaginationFromRequest r).Page =
      match Atoi (r.Query "page") with
      | some n => if n > 0 then n else 1
      | none => 1 := by
  unfold GeneratePaginationFromRequest
  by_cases hq : r.Query "page" = ""
  · simp [hq, Atoi_empty]
  · simp only [ne_eq, hq, not_false_eq_true, if_true]

theorem GeneratePagination_Limit (r : Request) :
    (GeneratePaginationFromRequest r).Limit =
      match Atoi (r.Query "limit") with
      | some n => if n > 0 then min n 100 else 10
      | none => 10 := by
  unfold GeneratePaginationFromRequest
  by_cases hq : r.Query "limit" = ""
  · simp [hq, Atoi_empty]
  · simp only [ne_eq, hq, not_false_eq_true, if_true]
    cases Atoi (r.Query "limit") with
    | none => rfl
    | some n =>
      simp only
      split
      · split
        · rw [min_eq_right (by omega)]
        · rw [min_eq_left (by omega)]
      · rfl

/-- C12: for every query, `GeneratePaginationFromRequest` returns `Page >= 1` and
`1 <= Limit <= 100`; `Page` is the value `strconv.Atoi` parses from the `page`
parameter when that value is positive and 1 otherwise, `Limit` is the minimum of the
parsed value and 100 when the parsed value is positive and 10 otherwise.  In
particular the decimal numeral of a positive `n` (within the range of `int`) gives
`Page = n` and `Limit = min n 100`, and an absent parameter gives the default. -/
theorem GeneratePaginationFromRequest_bounds (r : Request) :
    1 ≤ (GeneratePaginationFromRequest r).Page ∧
    1 ≤ (GeneratePaginationFromRequest r).Limit ∧
    (GeneratePaginationFromRequest r).Limit ≤ 100 ∧
    ((GeneratePaginationFromRequest r).Page =
      match Atoi (r.Query "page") with
      | some n => if n > 0 then n else 1
      | none => 1) ∧
    ((GeneratePaginationFromRequest r).Limit =
      match Atoi (r.Query "limit") with
      | some n => if n > 0 then min n 100 else 10
      | none => 10) ∧
    (∀ n : Nat, 0 < n → n < 2 ^ 63 → r.Query "page" = Nat.repr n →
      (GeneratePaginationFromRequest r).Page = n) ∧
    (∀ n : Nat, 0 < n → n < 2 ^ 63 → r.Query "limit" = Nat.repr n →
      (GeneratePaginationFromRequest r).Limit = min (n : Int) 100) ∧
    (r.Query "page" = "" → (GeneratePaginationFromRequest r).Page = 1) ∧
    (r.Query "limit" = "" → (GeneratePaginationFromRequest r).Limit = 10) := by
  have hP := GeneratePagination_Page r
  have hL := GeneratePagination_Limit r
  refine ⟨?_, ?_, ?_, hP, hL, ?_, ?_, ?_, ?_⟩
  · rw [hP]
    cases Atoi (r.Query "page") with
    | none => decide
    | some n =>
      simp only
      split
      · omega
      · decide
  · rw [hL]
    cases Atoi (r.Query "limit") with
    | none => decide
    | some n =>
      simp only
      split
      · exact le_min (by omega) (by decide)
      · decide
  · rw [hL]
    cases Atoi (r.Query "limit") with
    | none => decide
    | some n =>
      simp only
      split
      · exact min_le_right _ _
      · decide
  · intro n hn hr hq
    rw [hP, hq, Atoi_repr n hr]
    simp only
    rw [if_pos (by omega)]
  · intro n hn hr hq
    rw [hL, hq, Atoi_repr n hr]
    simp only
    rw [if_pos (by omega)]
  · intro hq
    rw [hP, hq, Atoi_empty]
  · intro hq
    rw [hL, hq, Atoi_empty]

/-- C12 at `exampleListing`: `page=3` gives page 3 and `limit=500` is cut to 100. -/
theorem GeneratePaginationFromRequest_bounds_witness :
    (GeneratePaginationFromRequest exampleListing).Page = ((3 : Nat) : Int) ∧
    (GeneratePaginationFromRequest exampleListing).Limit = min (((500 : Nat) : Int)) 100 ∧
    (GeneratePaginationFromRequest
      { exampleListing with query := [("page", "-2"), ("limit", "0")] }).Page = 1 ∧
    (GeneratePaginationFromRequest
      { exampleListing with query := [("page", "-2"), ("limit", "0")] }).Limit = 10 ∧
    (GeneratePaginationFromRequest
      { exampleListing with query := [("page", "two"), ("limit", "99999999999999999999")] })
      = { Page := 1, Limit := 10, TotalRows := 0, TotalPages := 0 } :=
  ⟨(GeneratePaginationFromRequest_bounds exampleListing).2.2.2.2.2.1 3 (by decide) (by decide)
      (by decide),
    (GeneratePaginationFromRequest_bounds exampleListing).2.2.2.2.2.2.1 500 (by decide)
      (by decide) (by decide),
    by decide, by decide, by decide⟩

/-! ## Filters -/

theorem empty_not_valid : "" ∉ validSortFields := by decide

theorem created_at_valid : "created_at" ∈ validSortFields := by decide

theorem GenerateFilter_SortBy (r : Request) :
    (GenerateFilterFromRequest r).SortBy =
      if r.Query "sort" ∈ validSortFields then r.Query "sort" else "created_at" := by
  have h1 := empty_not_valid
  have h2 := created_at_valid
  simp only [GenerateFilterFromRequest]
  by_cases hs : r.Query "sort" ∈ validSortFields
  · have hne : r.Query "sort" ≠ "" := fun e => h1 (e ▸ hs)
    split_ifs <;> simp_all
  · split_ifs <;> simp_all

theorem GenerateFilter_SortOrder (r : Request) :
    (GenerateFilterFromRequest r).SortOrder =
      if r.Query "order" = "asc" ∨ r.Query "order" = "desc" then r.Query "order" else "desc" := by
  simp only [GenerateFilterFromRequest]
  split_ifs <;> simp_all

/-- C13: for every query, `GenerateFilterFromRequest` returns a `SortBy` of the five
whitelisted columns and a `SortOrder` that is `asc` or `desc`; a value of the
parameter that is in the set is kept, any other value, the empty one included,
becomes `created_at`, respectively `desc`; the `ORDER BY` clause of `GetUserFiles`
is therefore one of ten fixed strings. -/
theorem GenerateFilterFromRequest_whitelist (r : Request) :
    (GenerateFilterFromRequest r).SortBy ∈
      ["created_at", "file_size", "file_name", "original_name", "file_type"] ∧
    ((GenerateFilterFromRequest r).SortOrder = "asc" ∨
      (GenerateFilterFromRequest r).SortOrder = "desc") ∧
    ((GenerateFilterFromRequest r).SortBy =
      if r.Query "sort" ∈ ["created_at", "file_size", "file_name", "original_name", "file_type"]
      then r.Query "sort" else "created_at") ∧
    ((GenerateFilterFromRequest r).SortOrder =
      if r.Query "order" = "asc" ∨ r.Query "order" = "desc" then r.Query "order" else "desc") ∧
    orderClause (GenerateFilterFromRequest r) ∈
      ["created_at asc", "created_at desc", "file_size asc", "file_size desc",
        "file_name asc", "file_name desc", "original_name asc", "original_name desc",
        "file_type asc", "file_type desc"] := by
  have hB := GenerateFilter_SortBy r
  have hO := GenerateFilter_SortOrder r
  have hBm : (GenerateFilterFromRequest r).SortBy ∈ validSortFields := by
    rw [hB]
    split
    · assumption
    · exact created_at_valid
  have hOm : (GenerateFilterFromRequest r).SortOrder = "asc" ∨
      (GenerateFilterFromRequest r).SortOrder = "desc" := by
    rw [hO]
    split
    · assumption
    · exact Or.inr rfl
  refine ⟨hBm, hOm, hB, hO, ?_⟩
  unfold orderClause
  simp only [validSortFields, List.mem_cons, List.mem_singleton, List.not_mem_nil, or_false] at hBm
  rcases hBm with h | h | h | h | h <;> rcases hOm with h' | h' <;> rw [h, h'] <;> decide

/-! ## The size limit of uploads -/

theorem MaxFileSize_eq : MaxFileSize = 10485760 := by decide

theorem UploadFile_too_large (env : UploadEnv) (w : World) (file : FileHeader)
    (hf : env.formFile = some file) (hs : file.Size > 10485760) :
    UploadFile env w = ErrorResponse 400 "File size exceeds 10MB limit" w := by
  unfold UploadFile
  rw [hf]
  simp only [MaxFileSize_eq, hs, if_true]

theorem UploadFile_within_limit (env : UploadEnv) (rc : Option Client) (r : Request)
    (file : FileHeader) (hf : env.formFile = some file) (hs : file.Size ≤ 10485760) :
    ∃ rest : List Event,
      (UploadFile env (World.new rc r)).events =
        Event.saveUploadedFile
          ("uploads/" ++ (toString r.GetUint ++ "_" ++ toString env.unix ++ Ext file.Filename))
          (!env.saveFails) :: rest ∧
      ∀ e ∈ rest, ∀ rep, e = Event.respond rep → rep.code ≠ 400 := by
  have hs' : ¬ file.Size > 10485760 := by omega
  unfold UploadFile
  rw [hf]
  simp only [MaxFileSize_eq, hs', if_false, World.new, ErrorResponse, SuccessResponse,
    World.DeleteCachePattern, List.nil_append]
  rcases env with ⟨ff, unix, _ | _, _ | id⟩ <;> simp

/-- C14: an upload that carries a file is answered 400 with the message
`File size exceeds 10MB limit` exactly when the size of the file is greater than
`10 << 20 = 10485760`; that answer is then the only event (nothing is saved to disk
or to the database), and a file of at most 10485760 bytes passes the check: the first
event is the call of `SaveUploadedFile` and no later answer is a 400. -/
theorem UploadFile_size_limit (env : UploadEnv) (rc : Option Client) (r : Request)
    (file : FileHeader) (hf : env.formFile = some file) :
    MaxFileSize = 10485760 ∧
    (Event.respond
        { code := 400, status := "error", message := "File size exceeds 10MB limit",
          data := none } ∈ (UploadFile env (World.new rc r)).events
      ↔ file.Size > 10485760) ∧
    (file.Size > 10485760 →
      (UploadFile env (World.new rc r)).events =
        [Event.respond
          { code := 400, status := "error", message := "File size exceeds 10MB limit",
            data := none }]) ∧
    (file.Size ≤ 10485760 →
      ∃ rest : List Event,
        (UploadFile env (World.new rc r)).events =
          Event.saveUploadedFile
            ("uploads/" ++ (toString r.GetUint ++ "_" ++ toString env.unix ++ Ext file.Filename))
            (!env.saveFails) :: rest ∧
        ∀ e ∈ rest, ∀ rep, e = Event.respond rep → rep.code ≠ 400) := by
  have hbig : file.Size > 10485760 →
      (UploadFile env (World.new rc r)).events =
        [Event.respond
          { code := 400, status := "error", message := "File size exceeds 10MB limit",
            data := none }] := by
    intro hs
    rw [UploadFile_too_large env _ file hf hs]
    rfl
  refine ⟨MaxFileSize_eq, ⟨?_, ?_⟩, hbig, UploadFile_within_limit env rc r file hf⟩
  · intro hmem
    by_contra hs
    obtain ⟨rest, hev, hrest⟩ := UploadFile_within_limit env rc r file hf (by omega)
    rw [hev] at hmem
    rcases List.mem_cons.1 hmem with h | h
    · cases h
    · exact hrest _ h _ rfl rfl
  · intro hs
    rw [hbig hs]
    exact List.mem_singleton.2 rfl

/-- C14 at the boundary: a file of exactly 10485760 bytes is saved and answered 201. -/
theorem UploadFile_size_limit_witness :
    (UploadFile boundaryUpload (World.new none exampleMutation)).replies =
      [{ code := 201, status := "success", message := "File uploaded successfully",
         data := some (Payload.file
           { ID := 4, UserID := 7, FileName := "7_1700000000.bin", OriginalName := "big.bin",
             FilePath := "uploads/7_1700000000.bin", FileSize := 10485760, FileType := "other",
             Status := "pending" }) }] ∧
    ¬ (Event.respond
        { code := 400, status := "error", message := "File size exceeds 10MB limit",
          data := none } ∈ (UploadFile boundaryUpload (World.new none exampleMutation)).events) :=
  ⟨by decide,
    fun hmem =>
      absurd
        ((UploadFile_size_limit boundaryUpload none exampleMutation
          { Filename := "big.bin", Size := 10485760 } rfl).2.1.1 hmem)
        (by decide)⟩

/-! ## The key and the query string -/

/-- C15: the derived key does not depend on the query string, so on an available
store that does not fail, after a GET answered 200 with a non-empty body `b`, a GET
of the same path by the same user with any other query parameters, less than the
TTL later, is a hit: it is answered with `X-Cache: HIT` and the body `b`, and the
only event is the lookup (the handler is not entered). -/
theorem cacheKey_ignores_query (md5 : String → Digest) (d dt : Nat) (h : Handler)
    (c : Client) (r : Request) (q : List (String × String)) (b : String)
    (hm : r.method = "GET") (hf : c.faults = [])
    (hk : List.lookup (r.cacheKey md5) c.entries = none)
    (hs : (h.response r).status = 200) (hb : (h.response r).body = b) (hne : b ≠ "")
    (hdt : dt < d) :
    Request.cacheKey md5 { r with query := q } = r.cacheKey md5 ∧
    (serve md5 d h (World.new
      ((serve md5 d h (World.new (some c) r)).RedisClient.map (Client.elapse dt))
      { r with query := q })).writer.Get "X-Cache" = some "HIT" ∧
    (serve md5 d h (World.new
      ((serve md5 d h (World.new (some c) r)).RedisClient.map (Client.elapse dt))
      { r with query := q })).writer.body = b ∧
    (serve md5 d h (World.new
      ((serve md5 d h (World.new (some c) r)).RedisClient.map (Client.elapse dt))
      { r with query := q })).events = [Event.getCache (r.cacheKey md5)] := by
  have hbw : bytesWritten (h r) = b := by rw [← response_body, hb]
  rw [first_request_store md5 d h c r hm hf hk hs]
  simp only [Option.map_some', hbw]
  have hget : ((Client.elapse dt
      { c with entries :=
          (r.cacheKey md5, { value := b, expiresAt := if d = 0 then none else some (c.now + d) }) ::
            c.entries.filter (fun kv => kv.1 != r.cacheKey md5) }).Get
        (generateCacheKey md5 r.path r.GetUint)).1 = (b, none) := by
    rw [Get_no_fault _ _ (by simp [Client.elapse, hf])]
    have := elapse_lookup_head c (r.cacheKey md5) b d dt hdt
      (c.entries.filter (fun kv => kv.1 != r.cacheKey md5))
    unfold Request.cacheKey at this
    unfold Request.cacheKey
    rw [this]
  have hhit := serve_hit md5 d h _ { r with query := q } b hm hget hne
  rw [hhit]
  refine ⟨rfl, ?_, rfl, rfl⟩
  simp only [ResponseWriter.Get]
  decide

/-- C15 at `pageHandler`: the request for page 2, 299 units of time after the request
for page 1 with a duration of 300, is answered from the cache with the body of
page 1, where the handler alone would have answered with page 2. -/
theorem cacheKey_ignores_query_witness :
    Request.cacheKey exampleMd5 { exampleRequest with query := [("page", "2")] } =
      Request.cacheKey exampleMd5 { exampleRequest with query := [("page", "1")] } ∧
    (serve exampleMd5 300 pageHandler (World.new
      ((serve exampleMd5 300 pageHandler
        (World.new (some exampleClient)
          { exampleRequest with query := [("page", "1")] })).RedisClient.map (Client.elapse 299))
      { exampleRequest with query := [("page", "2")] })).writer.Get "X-Cache" = some "HIT" ∧
    (serve exampleMd5 300 pageHandler (World.new
      ((serve exampleMd5 300 pageHandler
        (World.new (some exampleClient)
          { exampleRequest with query := [("page", "1")] })).RedisClient.map (Client.elapse 299))
      { exampleRequest with query := [("page", "2")] })).writer.body = "[1]" ∧
    (serve exampleMd5 300 pageHandler (World.new
      ((serve exampleMd5 300 pageHandler
        (World.new (some exampleClient)
          { exampleRequest with query := [("page", "1")] })).RedisClient.map (Client.elapse 299))
      { exampleRequest with query := [("page", "2")] })).events =
      [Event.getCache (Request.cacheKey exampleMd5 { exampleRequest with query := [("page", "1")] })] ∧
    (pageHandler.response { exampleRequest with query := [("page", "2")] }).body = "[2]" :=
  (fun t => ⟨t.1, t.2.1, t.2.2.1, t.2.2.2, by decide⟩)
    (cacheKey_ignores_query exampleMd5 300 299 pageHandler exampleClient
      { exampleRequest with query := [("page", "1")] } [("page", "2")] "[1]"
      (by decide) (by decide) (by decide) (by decide) (by decide) (by decide) (by decide))

/-! ## The number of pages -/

theorem wrapInt64_id (x : Int) (h1 : -2 ^ 63 ≤ x) (h2 : x < 2 ^ 63) : wrapInt64 x = x := by
  unfold wrapInt64
  omega

theorem totalPages_eq (T L : Int) (hL1 : 1 ≤ L) (hL2 : L ≤ 100) (hT : 0 < T)
    (hfit : T + L - 1 < 2 ^ 63) :
    wrapInt64 (Int.tdiv (wrapInt64 (wrapInt64 (T + L) - 1)) L) = (T + L - 1) / L := by
  have hq0 : 0 ≤ (T + L - 1) / L := Int.ediv_nonneg (by omega) (by omega)
  have hq1 : (T + L - 1) / L ≤ T + L - 1 := Int.ediv_le_self _ (by omega)
  have hTL : T + L < 2 ^ 63 ∨ T + L = 2 ^ 63 := by omega
  have hin : wrapInt64 (wrapInt64 (T + L) - 1) = T + L - 1 := by
    unfold wrapInt64
    omega
  rw [hin, Int.tdiv_eq_ediv (by omega) (by omega)]
  exact wrapInt64_id _ (by omega) (by omega)

theorem ceil_div_spec (T L : Int) (hL : 1 ≤ L) :
    T ≤ (T + L - 1) / L * L ∧ (∀ m : Int, T ≤ m * L → (T + L - 1) / L ≤ m) := by
  have hpos : 0 < L := by omega
  have hdm := Int.ediv_add_emod (T + L - 1) L
  have hr0 := Int.emod_nonneg (T + L - 1) (by omega : L ≠ 0)
  have hr1 := Int.emod_lt_of_pos (T + L - 1) hpos
  constructor
  · nlinarith
  · intro m hm
    by_contra hlt
    have h1 : m + 1 ≤ (T + L - 1) / L := by omega
    have h2 : (m + 1) * L ≤ (T + L - 1) / L * L := Int.mul_le_mul_of_nonneg_right h1 (by omega)
    nlinarith

theorem offset_lt_iff (T L P n : Int) (hL : 1 ≤ L) (hP : 1 ≤ P)
    (h1 : T ≤ n * L) (h2 : ∀ m : Int, T ≤ m * L → n ≤ m) :
    (P - 1) * L < T ↔ 1 ≤ P ∧ P ≤ n := by
  constructor
  · intro h
    refine ⟨hP, ?_⟩
    by_contra hlt
    have h3 : n ≤ P - 1 := by omega
    have h4 : n * L ≤ (P - 1) * L := Int.mul_le_mul_of_nonneg_right h3 (by omega)
    omega
  · rintro ⟨_, hPn⟩
    by_contra hge
    have := h2 (P - 1) (by omega)
    omega

theorem ceil_eq (T L n : Int) (hL : 1 ≤ L) (h1 : T ≤ n * L)
    (h2 : ∀ m : Int, T ≤ m * L → n ≤ m) : n = ⌈(T : ℚ) / (L : ℚ)⌉ := by
  have hLq : (0 : ℚ) < (L : ℚ) := by exact_mod_cast (by omega : 0 < L)
  symm
  rw [Int.ceil_eq_iff]
  constructor
  · rw [lt_div_iff₀ hLq]
    have h3 : (n - 1) * L < T := by
      by_contra hge
      have := h2 (n - 1) (by omega)
      omega
    exact_mod_cast h3
  · rw [div_le_iff₀ hLq]
    exact_mod_cast h1

/-- C16, as stated, fails at two paginations with `1 <= Limit <= 100` and `TotalRows >
0`: with `Page = 0` the offset `(Page - 1) * Limit = -10` is below `TotalRows = 5`
although `1 <= Page` does not hold; and with `TotalRows` the largest `int64` the sum
`TotalRows + Limit - 1` wraps around, so that `TotalPages` becomes negative. -/
theorem CalculateTotalPages_counterexample :
    (1 ≤ zeroPage.Limit ∧ zeroPage.Limit ≤ 100 ∧ 0 < zeroPage.TotalRows ∧
      zeroPage.CalculateTotalPages = some { zeroPage with TotalPages := 1 } ∧
      (zeroPage.Page - 1) * zeroPage.Limit < zeroPage.TotalRows ∧
      ¬ (1 ≤ zeroPage.Page ∧ zeroPage.Page ≤ 1)) ∧
    (1 ≤ hugeCount.Limit ∧ hugeCount.Limit ≤ 100 ∧ 0 < hugeCount.TotalRows ∧
      hugeCount.CalculateTotalPages =
        some { hugeCount with TotalPages := -92233720368547757 } ∧
      ¬ (hugeCount.TotalRows ≤ -92233720368547757 * hugeCount.Limit)) := by
  decide

/-- C16, amended: for `1 <= Limit <= 100`, `TotalRows > 0` and `TotalRows + Limit - 1`
within the range of `int64`, `CalculateTotalPages` sets `TotalPages` to the ceiling
of `TotalRows / Limit`, the least `n` with `n * Limit >= TotalRows`, so that for
`Page >= 1` the exact offset `(Page - 1) * Limit` is below `TotalRows` if and only if
`1 <= Page <= TotalPages` (and `GetOffset` is that offset when it fits an `int`); when
`TotalRows = 0` the pagination is left unchanged, and a pagination generated from a
request has `TotalPages = 0`. -/
theorem CalculateTotalPages_ceil (p : Pagination) :
    (1 ≤ p.Limit → p.Limit ≤ 100 → 0 < p.TotalRows → p.TotalRows + p.Limit - 1 < 2 ^ 63 →
      ∃ n : Int,
        p.CalculateTotalPages = some { p with TotalPages := n } ∧
        n = ⌈(p.TotalRows : ℚ) / (p.Limit : ℚ)⌉ ∧
        p.TotalRows ≤ n * p.Limit ∧
        (∀ m : Int, p.TotalRows ≤ m * p.Limit → n ≤ m) ∧
        (1 ≤ p.Page → ((p.Page - 1) * p.Limit < p.TotalRows ↔ 1 ≤ p.Page ∧ p.Page ≤ n)) ∧
        (1 ≤ p.Page → (p.Page - 1) * p.Limit < 2 ^ 63 →
          p.GetOffset = (p.Page - 1) * p.Limit)) ∧
    (p.TotalRows = 0 → p.CalculateTotalPages = some p) ∧
    (∀ r : Request, (GeneratePaginationFromRequest r).TotalRows = 0 ∧
      (GeneratePaginationFromRequest r).TotalPages = 0 ∧
      (GeneratePaginationFromRequest r).CalculateTotalPages
        = some (GeneratePaginationFromRequest r)) := by
  refine ⟨?_, ?_, ?_⟩
  · intro hL1 hL2 hT hfit
    obtain ⟨h1, h2⟩ := ceil_div_spec p.TotalRows p.Limit hL1
    refine ⟨(p.TotalRows + p.Limit - 1) / p.Limit, ?_, ceil_eq _ _ _ hL1 h1 h2, h1, h2, ?_, ?_⟩
    · unfold Pagination.CalculateTotalPages
      rw [if_pos hT, if_neg (by omega), totalPages_eq _ _ hL1 hL2 hT hfit]
    · intro hP
      exact offset_lt_iff _ _ _ _ hL1 hP h1 h2
    · intro hP hfit2
      unfold Pagination.GetOffset
      have hP2 : p.Page - 1 < 2 ^ 63 := by nlinarith
      rw [wrapInt64_id (p.Page - 1) (by omega) hP2]
      exact wrapInt64_id _ (by nlinarith) hfit2
  · intro h0
    unfold Pagination.CalculateTotalPages
    rw [if_neg (by omega)]
  · intro r
    exact ⟨rfl, rfl, rfl⟩

/-- C16 at `examplePagination`: twenty-five rows in pages of ten make three pages, and
the third page starts at the offset 20. -/
theorem CalculateTotalPages_ceil_witness :
    examplePagination.CalculateTotalPages = some { examplePagination with TotalPages := 3 } ∧
    examplePagination.GetOffset = 20 ∧
    ∃ n : Int,
      examplePagination.CalculateTotalPages = some { examplePagination with TotalPages := n } ∧
      n = ⌈(examplePagination.TotalRows : ℚ) / (examplePagination.Limit : ℚ)⌉ ∧
      examplePagination.TotalRows ≤ n * examplePagination.Limit ∧
      (∀ m : Int, examplePagination.TotalRows ≤ m * examplePagination.Limit → n ≤ m) ∧
      (1 ≤ examplePagination.Page →
        ((examplePagination.Page - 1) * examplePagination.Limit < examplePagination.TotalRows
          ↔ 1 ≤ examplePagination.Page ∧ examplePagination.Page ≤ n)) ∧
      (1 ≤ examplePagination.Page →
        (examplePagination.Page - 1) * examplePagination.Limit < 2 ^ 63 →
        examplePagination.GetOffset = (examplePagination.Page - 1) * examplePagination.Limit) :=
  ⟨by decide, by decide,
    (CalculateTotalPages_ceil examplePagination).1 (by decide) (by decide) (by decide)
      (by decide)⟩

end SmartFileApi
